import Mathlib

/-!
Verification of the capability-matching and fallback-selection engine of the
Harmony service router (src/app/models/services/index.ts).

The embedding is a direct shallow translation of the TypeScript source:
pure functions become Lean functions, the thrown `UnsupportedOperation`
control-flow signal becomes an `Except`, and the two in-place mutations of
the source (the request's `outputFormat` field and the module-level
`noOpService.message` field) become explicit state passing.

The content-negotiation matcher (`isMimeTypeAccepted`, `allowsAny` from
`util/content-negotiation`) and the natural-language list join
(`listToText`, `Conjuction` from `util/string`) are not part of the given
sources; they are modelled from the specification, as marked on each.
-/

namespace HarmonySvc

/-- A media type, split into its type and subtype components. The TypeScript
source carries media types as strings such as "image/tiff"; we represent the
two components explicitly (a wildcard component is the literal "*"). -/
structure MimeType where
  ty : String
  sub : String
deriving DecidableEq, Repr

/-- Renders a media type back to its usual "type/subtype" string form. -/
def mtText (m : MimeType) : String :=
  m.ty ++ "/" ++ m.sub

/-- Modelled from the spec: `isMimeTypeAccepted(mediaType, pattern)` from
`util/content-negotiation` (not under src/). The spec gives its contract:
standard type/subtype wildcard matching: a `*` component of the pattern
accepts any component, otherwise the components must match exactly. -/
def isMimeTypeAccepted (mt : MimeType) (pattern : MimeType) : Bool :=
  (pattern.ty == "*" || pattern.ty == mt.ty) && (pattern.sub == "*" || pattern.sub == mt.sub)

/-- Modelled from the spec: `allowsAny(pattern)` from `util/content-negotiation`
(not under src/). True exactly for the "accept anything" wildcard pattern. -/
def allowsAny (m : MimeType) : Bool :=
  m.ty == "*" && m.sub == "*"

/-- Modelled from the spec: the `Conjuction` enum from `util/string`
(not under src/); the source spells the name without the "n". -/
inductive Conjuction where
  | AND
  | OR
deriving DecidableEq, Repr

/-- The joining word of a conjunction. -/
def conjWord : Conjuction → String
  | Conjuction.AND => "and"
  | Conjuction.OR => "or"

/-- Modelled from the spec: `listToText` from `util/string` (not under src/).
Natural-language joining: comma-separated with the conjunction word before
the final item. -/
def listToText (items : List String) (conj : Conjuction) : String :=
  match items with
  | [] => ""
  | [a] => a
  | [a, b] => a ++ " " ++ conjWord conj ++ " " ++ b
  | a :: rest => a ++ ", " ++ listToText rest conj

/-- Subsetting capability flags of a service. The field `varSub` embeds the
source key `capabilities.subsetting.variable` (a reserved word in Lean). -/
structure SubsettingCaps where
  varSub : Bool
  bbox : Bool
  shape : Bool
deriving DecidableEq, Repr

/-- The capability record of a service (`ServiceConfig.capabilities`). The
`getIn` defaults of the source (false flags, empty format list) are folded
into construction: every record is total here. -/
structure Capabilities where
  output_formats : List MimeType
  subsetting : SubsettingCaps
  reprojection : Bool
deriving DecidableEq, Repr

/-- A service descriptor from services.yml (`ServiceConfig`). The service-type
tag is omitted: it is used only by the external service factory, never by the
matching core. -/
structure ServiceConfig where
  name : String
  collections : List String
  capabilities : Capabilities
  message : Option String
deriving DecidableEq, Repr

/-- One source of a data operation: a collection and its variable selectors.
The field `vars` embeds the source key `variables` (a reserved word in
Lean); an absent selector list of the source is the empty list here. -/
structure Source where
  collection : String
  vars : List String
deriving DecidableEq, Repr

/-- The request descriptor (`DataOperation`). Presence-only payloads
(bounding rectangle, geojson shape) keep opaque content. -/
structure DataOperation where
  sources : List Source
  boundingRectangle : Option (List Int)
  geojson : Option String
  crs : Option String
  outputFormat : Option MimeType
deriving DecidableEq, Repr

/-- The request context (`RequestContext`): accepted media-type patterns in
priority order. An absent list of the source is the empty list here. -/
structure RequestContext where
  requestedMimeTypes : List MimeType
deriving DecidableEq, Repr

/-- isCollectionMatch: all collections of the operation's sources are served
by the given service. -/
def isCollectionMatch (operation : DataOperation) (serviceConfig : ServiceConfig) : Bool :=
  operation.sources.all (fun source => serviceConfig.collections.contains source.collection)

/-- selectServicesForFormat: the services whose output-format list has an
entry accepted by the requested format pattern. -/
def selectServicesForFormat (format : MimeType) (configs : List ServiceConfig) :
    List ServiceConfig :=
  configs.filter (fun config =>
    (config.capabilities.output_formats.find? (fun f => isMimeTypeAccepted f format)).isSome)

/-- The `for (const mimeType of context.requestedMimeTypes)` loop of
`selectFormat`, as structural recursion over the pattern list. A pattern
whose service set is empty, or whose first service yields no accepted
format, falls through to the next pattern. -/
def selectFormatLoop (mimeTypes : List MimeType) (configs : List ServiceConfig) :
    Option MimeType :=
  match mimeTypes with
  | [] => none
  | mimeType :: rest =>
    let services := selectServicesForFormat mimeType configs
    let outputFormat : Option MimeType :=
      match services with
      | [] => none
      | s :: _ => s.capabilities.output_formats.find? (fun f => isMimeTypeAccepted f mimeType)
    match outputFormat with
    | some f => some f
    | none => selectFormatLoop rest configs

/-- selectFormat: the operation's own output format if set, otherwise the
first format resolved from the accepted media types. -/
def selectFormat (operation : DataOperation) (context : RequestContext)
    (configs : List ServiceConfig) : Option MimeType :=
  match operation.outputFormat with
  | some f => some f
  | none => selectFormatLoop context.requestedMimeTypes configs

/-- requiresReformatting: an explicit output format is requested, or accepted
media types were sent and none of them allows any type. -/
def requiresReformatting (operation : DataOperation) (context : RequestContext) : Bool :=
  operation.outputFormat.isSome
    || (!context.requestedMimeTypes.isEmpty
        && (context.requestedMimeTypes.filter allowsAny).isEmpty)

/-- requiresVariableSubsetting: some source has a non-empty variable list. -/
def requiresVariableSubsetting (operation : DataOperation) : Bool :=
  !(operation.sources.filter (fun s => !s.vars.isEmpty)).isEmpty

/-- supportsVariableSubsetting: the services with the variable subsetting flag. -/
def supportsVariableSubsetting (configs : List ServiceConfig) : List ServiceConfig :=
  configs.filter (fun config => config.capabilities.subsetting.varSub)

/-- requiresSpatialSubsetting: a bounding rectangle is present. -/
def requiresSpatialSubsetting (operation : DataOperation) : Bool :=
  operation.boundingRectangle.isSome

/-- supportsSpatialSubsetting: the services with the bbox subsetting flag. -/
def supportsSpatialSubsetting (configs : List ServiceConfig) : List ServiceConfig :=
  configs.filter (fun config => config.capabilities.subsetting.bbox)

/-- requiresReprojection: a target CRS is present. -/
def requiresReprojection (operation : DataOperation) : Bool :=
  operation.crs.isSome

/-- supportsReprojection: the services with the reprojection flag. -/
def supportsReprojection (configs : List ServiceConfig) : List ServiceConfig :=
  configs.filter (fun config => config.capabilities.reprojection)

/-- requiresShapefileSubsetting: a geojson shape is present. -/
def requiresShapefileSubsetting (operation : DataOperation) : Bool :=
  operation.geojson.isSome

/-- supportsShapefileSubsetting: the services with the shape subsetting flag. -/
def supportsShapefileSubsetting (configs : List ServiceConfig) : List ServiceConfig :=
  configs.filter (fun config => config.capabilities.subsetting.shape)

/-- noOpService: the module-level no-match sentinel descriptor. Its mutable
`message` field lives in `ServiceState.noOpMessage`; this value records the
immutable parts. -/
def noOpService : ServiceConfig :=
  { name := "noOpService"
    collections := []
    capabilities :=
      { output_formats := [{ ty := "application", sub := "json" }]
        subsetting := { varSub := false, bbox := false, shape := false }
        reprojection := false }
    message := none }

/-- The UnsupportedOperation control-flow signal: the operation and the
requirement descriptions accumulated when a filter step eliminated every
candidate. -/
structure UnsupportedOperation where
  operation : DataOperation
  requestedOperations : List String
deriving DecidableEq, Repr

/-- The common shape of the filter-chain steps: candidates in, reduced
candidates out, threading the requirement log that the source mutates in
place, or the thrown signal. -/
abbrev FilterFn :=
  DataOperation → RequestContext → List ServiceConfig → List String →
    Except UnsupportedOperation (List ServiceConfig × List String)

/-- filterCollectionMatches: keeps the services serving every requested
collection; applied unconditionally and never logged as a requirement. -/
def filterCollectionMatches : FilterFn := fun operation _context configs requestedOperations =>
  let matched := configs.filter (fun config => isCollectionMatch operation config)
  if matched.isEmpty then Except.error ⟨operation, requestedOperations⟩
  else Except.ok (matched, requestedOperations)

/-- filterVariableSubsettingMatches: when variable subsetting is required,
logs it and keeps only supporting services. -/
def filterVariableSubsettingMatches : FilterFn :=
  fun operation _context configs requestedOperations =>
  let step :=
    if requiresVariableSubsetting operation
    then (requestedOperations ++ ["variable subsetting"], supportsVariableSubsetting configs)
    else (requestedOperations, configs)
  if step.2.isEmpty then Except.error ⟨operation, step.1⟩
  else Except.ok (step.2, step.1)

/-- filterSpatialSubsettingMatches: when spatial subsetting is required, logs
it and keeps only supporting services. -/
def filterSpatialSubsettingMatches : FilterFn :=
  fun operation _context configs requestedOperations =>
  let step :=
    if requiresSpatialSubsetting operation
    then (requestedOperations ++ ["spatial subsetting"], supportsSpatialSubsetting configs)
    else (requestedOperations, configs)
  if step.2.isEmpty then Except.error ⟨operation, step.1⟩
  else Except.ok (step.2, step.1)

/-- filterShapefileSubsettingMatches: when shapefile subsetting is required,
logs it and keeps only supporting services. -/
def filterShapefileSubsettingMatches : FilterFn :=
  fun operation _context configs requestedOperations =>
  let step :=
    if requiresShapefileSubsetting operation
    then (requestedOperations ++ ["shapefile subsetting"], supportsShapefileSubsetting configs)
    else (requestedOperations, configs)
  if step.2.isEmpty then Except.error ⟨operation, step.1⟩
  else Except.ok (step.2, step.1)

/-- filterReprojectionMatches: when reprojection is required, logs it and
keeps only supporting services. -/
def filterReprojectionMatches : FilterFn :=
  fun operation _context configs requestedOperations =>
  let step :=
    if requiresReprojection operation
    then (requestedOperations ++ ["reprojection"], supportsReprojection configs)
    else (requestedOperations, configs)
  if step.2.isEmpty then Except.error ⟨operation, step.1⟩
  else Except.ok (step.2, step.1)

/-- filterOutputFormatMatches: when reformatting is required, logs the
requested formats, resolves a concrete format and keeps the services
accepting it; otherwise passes the candidates through. -/
def filterOutputFormatMatches : FilterFn :=
  fun operation context configs requestedOperations =>
  if requiresReformatting operation context then
    let fmts :=
      match operation.outputFormat with
      | some f => [f]
      | none => context.requestedMimeTypes
    let reqOps :=
      requestedOperations ++ ["reformatting to " ++ listToText (fmts.map mtText) Conjuction.OR]
    let services :=
      match selectFormat operation context configs with
      | some outputFormat => selectServicesForFormat outputFormat configs
      | none => []
    if services.isEmpty then Except.error ⟨operation, reqOps⟩
    else Except.ok (services, reqOps)
  else
    if configs.isEmpty then Except.error ⟨operation, requestedOperations⟩
    else Except.ok (configs, requestedOperations)

/-- unsupportedCombinationMessage: the diagnostic rendered from a signal. -/
def unsupportedCombinationMessage (e : UnsupportedOperation) : String :=
  let collections := e.operation.sources.map (fun s => s.collection)
  if e.requestedOperations.isEmpty then
    "no operations can be performed on " ++ listToText collections Conjuction.AND
  else
    "the requested combination of operations: "
      ++ listToText e.requestedOperations Conjuction.AND
      ++ " on " ++ listToText collections Conjuction.AND ++ " is unsupported"

/-- allFilterFns: the strict chain, in source order; the output-format filter
is deliberately last. -/
def allFilterFns : List FilterFn :=
  [filterCollectionMatches,
   filterVariableSubsettingMatches,
   filterSpatialSubsettingMatches,
   filterShapefileSubsettingMatches,
   filterReprojectionMatches,
   filterOutputFormatMatches]

/-- requiredFilterFns: the reduced best-effort chain, omitting the spatial
and shapefile (soft axis) filters. -/
def requiredFilterFns : List FilterFn :=
  [filterCollectionMatches,
   filterVariableSubsettingMatches,
   filterReprojectionMatches,
   filterOutputFormatMatches]

/-- bestEffortMessage: the fixed degraded-match warning. -/
def bestEffortMessage : String :=
  "Data in output files may extend outside the spatial bounds you requested."

/-- The `for (const filterFn of filterFns)` loop of `filterServiceConfigs`:
chains the steps, threading candidates and the requirement log, and
propagates the first thrown signal. -/
def runFilters (fns : List FilterFn) (operation : DataOperation) (context : RequestContext)
    (configs : List ServiceConfig) (requestedOperations : List String) :
    Except UnsupportedOperation (List ServiceConfig × List String) :=
  match fns with
  | [] => Except.ok (configs, requestedOperations)
  | fn :: rest =>
    match fn operation context configs requestedOperations with
    | Except.error e => Except.error e
    | Except.ok (matched, reqOps) => runFilters rest operation context matched reqOps

/-- The value returned by one `filterServiceConfigs` call: either an alias of
the shared `noOpService` sentinel, a service descriptor value, or the
JavaScript `undefined` that `matches[0]` yields on an empty list. -/
inductive ChooseResult where
  | noOp
  | svc (config : ServiceConfig)
  | undef
deriving DecidableEq, Repr

/-- The `.name` read of a result; reading a field of `undefined` has no
value (it throws in JavaScript). -/
def resultName : ChooseResult → Option String
  | ChooseResult.noOp => some noOpService.name
  | ChooseResult.svc config => some config.name
  | ChooseResult.undef => none

/-- The module-level mutable state of the engine: the shared catalog and the
`message` field of the shared `noOpService` sentinel. -/
structure ServiceState where
  configs : List ServiceConfig
  noOpMessage : Option String
deriving DecidableEq, Repr

/-- Reading `result.message` after some call: the sentinel aliases the shared
state, a plain descriptor carries its own field. -/
def readMessage : ChooseResult → ServiceState → Option String
  | ChooseResult.noOp, st => st.noOpMessage
  | ChooseResult.svc config, _ => config.message
  | ChooseResult.undef, _ => none

/-- filterServiceConfigs: runs the chain; on success resolves a format (a
`some` third component never arises here), possibly narrowing the candidates
and mutating the operation's `outputFormat`, and returns `matches[0]`; on the
caught signal returns the sentinel alias together with the diagnostic written
into the sentinel's message field (the `some` third component). -/
def filterServiceConfigs (operation : DataOperation) (context : RequestContext)
    (configs : List ServiceConfig) (filterFns : List FilterFn) :
    ChooseResult × DataOperation × Option String :=
  match runFilters filterFns operation context configs [] with
  | Except.error e =>
    (ChooseResult.noOp, operation, some (unsupportedCombinationMessage e))
  | Except.ok (matched, _) =>
    match selectFormat operation context matched with
    | some outputFormat =>
      let narrowed := selectServicesForFormat outputFormat matched
      (match narrowed with
       | [] => ChooseResult.undef
       | c :: _ => ChooseResult.svc c,
       { operation with outputFormat := some outputFormat }, none)
    | none =>
      (match matched with
       | [] => ChooseResult.undef
       | c :: _ => ChooseResult.svc c,
       operation, none)

/-- requiresStrictCapabilitiesMatching: strict matching unless the request
mixes a required soft axis (spatial or shapefile subsetting) with a required
hard axis (variable subsetting, reprojection or reformatting). -/
def requiresStrictCapabilitiesMatching (operation : DataOperation)
    (context : RequestContext) : Bool :=
  (!requiresSpatialSubsetting operation && !requiresShapefileSubsetting operation)
    || (!requiresVariableSubsetting operation && !requiresReprojection operation
        && !requiresReformatting operation context)

/-- Applies a pending sentinel-message write to the module state. -/
def applyWrite (st : ServiceState) (w : Option String) : ServiceState :=
  match w with
  | none => st
  | some msg => { st with noOpMessage := some msg }

/-- chooseServiceConfig: the strict run, then, when the sentinel came back
and strict matching is not demanded, the reduced best-effort run whose match
is deep-cloned and annotated with the fixed warning. The degraded branch is
taken on the operation as already mutated by the strict run. The fall-through
`r` arm mirrors the source only as far as it is reachable (`undef` there
would throw in JavaScript; it is proved unreachable below). -/
def chooseServiceConfig (operation : DataOperation) (context : RequestContext)
    (st : ServiceState) : ChooseResult × DataOperation × ServiceState :=
  let r1 := filterServiceConfigs operation context st.configs allFilterFns
  let st1 := applyWrite st r1.2.2
  if resultName r1.1 = some noOpService.name
      ∧ requiresStrictCapabilitiesMatching r1.2.1 context = false then
    let r2 := filterServiceConfigs r1.2.1 context st.configs requiredFilterFns
    let st2 := applyWrite st1 r2.2.2
    if resultName r2.1 = some noOpService.name then (r2.1, r2.2.1, st2)
    else
      match r2.1 with
      | ChooseResult.svc c =>
        (ChooseResult.svc { c with message := some bestEffortMessage }, r2.2.1, st2)
      | r => (r, r2.2.1, st2)
  else (r1.1, r1.2.1, st1)

/-- Whether `chooseServiceConfig` takes its best-effort branch: the strict
result is named like the sentinel and strict matching is not demanded on the
(possibly mutated) operation. -/
def degradedRetryAttempted (operation : DataOperation) (context : RequestContext)
    (st : ServiceState) : Bool :=
  let r1 := filterServiceConfigs operation context st.configs allFilterFns
  decide (resultName r1.1 = some noOpService.name
    ∧ requiresStrictCapabilitiesMatching r1.2.1 context = false)

/-! ### Auxiliary notions for stating and proving properties -/

/-- The request with its output format overwritten, as the in-place mutation
`operation.outputFormat = outputFormat` of the source produces it. -/
def setOutputFormat (operation : DataOperation) (f : MimeType) : DataOperation :=
  { operation with outputFormat := some f }

/-- Replaces the operation carried by a thrown signal; successes pass
through. Used to compare filter runs that differ only in the operation's
output-format field. -/
def retag (operation : DataOperation) :
    Except UnsupportedOperation (List ServiceConfig × List String) →
      Except UnsupportedOperation (List ServiceConfig × List String)
  | Except.error e => Except.error ⟨operation, e.requestedOperations⟩
  | Except.ok x => Except.ok x

/-- A filter step that ignores the operation's output-format field, except
that its thrown signal embeds the operation it was handed. -/
def Insensitive (fn : FilterFn) : Prop :=
  ∀ operation f context configs reqOps,
    fn (setOutputFormat operation f) context configs reqOps =
      retag (setOutputFormat operation f) (fn operation context configs reqOps)

/-- A filter step that never returns an empty candidate list. -/
def StepNE (fn : FilterFn) : Prop :=
  ∀ operation context configs reqOps m r2,
    fn operation context configs reqOps = Except.ok (m, r2) → m ≠ []

/-- Modelled from the spec, for refinement comparison with `selectFormat`:
iterate accepted patterns in priority order; on the first pattern whose
filtered service set is non-empty, resolve to the first accepted entry of
the first such service's output-format list; otherwise advance; exhausting
the patterns yields no format. -/
def resolveFormatSpec (patterns : List MimeType) (configs : List ServiceConfig) :
    Option MimeType :=
  match patterns with
  | [] => none
  | p :: rest =>
    match selectServicesForFormat p configs with
    | [] => resolveFormatSpec rest configs
    | s :: _ => s.capabilities.output_formats.find? (fun f => isMimeTypeAccepted f p)

/-! ### Lemmas about the content-negotiation matcher -/

/-- Every media type is accepted by itself as a pattern. -/
theorem isMimeTypeAccepted_refl (f : MimeType) : isMimeTypeAccepted f f = true := by
  simp [isMimeTypeAccepted]

/-- Acceptance composes: a media type accepted by a pattern that is itself
accepted by an outer pattern is accepted by the outer pattern. -/
theorem isMimeTypeAccepted_trans {f g m : MimeType}
    (h1 : isMimeTypeAccepted f m = true) (h2 : isMimeTypeAccepted g f = true) :
    isMimeTypeAccepted g m = true := by
  simp only [isMimeTypeAccepted, Bool.and_eq_true, Bool.or_eq_true, beq_iff_eq] at h1 h2 ⊢
  obtain ⟨h1t, h1s⟩ := h1
  obtain ⟨h2t, h2s⟩ := h2
  constructor
  · rcases h1t with h | h <;> rcases h2t with h2 | h2 <;> simp_all
  · rcases h1s with h | h <;> rcases h2s with h2 | h2 <;> simp_all

/-- A service carrying the format itself passes the format filter. -/
theorem mem_selectServicesForFormat {s : ServiceConfig} {f : MimeType}
    {cs : List ServiceConfig} (hs : s ∈ cs) (hf : f ∈ s.capabilities.output_formats) :
    s ∈ selectServicesForFormat f cs := by
  unfold selectServicesForFormat
  rw [List.mem_filter]
  refine ⟨hs, ?_⟩
  rw [List.find?_isSome]
  exact ⟨f, hf, isMimeTypeAccepted_refl f⟩

/-- The format filter keeps a service that advertises the format. -/
theorem selectServicesForFormat_ne_nil {s : ServiceConfig} {f : MimeType}
    {cs : List ServiceConfig} (hs : s ∈ cs) (hf : f ∈ s.capabilities.output_formats) :
    selectServicesForFormat f cs ≠ [] :=
  List.ne_nil_of_mem (mem_selectServicesForFormat hs hf)

/-- Narrowing twice by the same format is the same as narrowing once. -/
theorem selectServicesForFormat_idem (f : MimeType) (cs : List ServiceConfig) :
    selectServicesForFormat f (selectServicesForFormat f cs) =
      selectServicesForFormat f cs := by
  unfold selectServicesForFormat
  rw [List.filter_filter]
  simp only [Bool.and_self]

/-- Elements of a format narrowing belong to the original list and pass the
acceptance test. -/
theorem of_mem_selectServicesForFormat {s : ServiceConfig} {f : MimeType}
    {cs : List ServiceConfig} (h : s ∈ selectServicesForFormat f cs) :
    s ∈ cs ∧ (s.capabilities.output_formats.find?
      (fun g => isMimeTypeAccepted g f)).isSome = true := by
  unfold selectServicesForFormat at h
  exact List.mem_filter.mp h

/-- If no accepted pattern matches any candidate, then no format accepted by
one of those patterns matches a candidate either. -/
theorem selectServicesForFormat_empty_trans {ms : List MimeType}
    {cs : List ServiceConfig} {f : MimeType}
    (hall : ∀ m ∈ ms, selectServicesForFormat m cs = [])
    (hex : ∃ m ∈ ms, isMimeTypeAccepted f m = true) :
    selectServicesForFormat f cs = [] := by
  obtain ⟨m, hm, hacc⟩ := hex
  have hempty := hall m hm
  unfold selectServicesForFormat at hempty ⊢
  rw [List.filter_eq_nil_iff] at hempty ⊢
  intro s hs hsome
  rw [List.find?_isSome] at hsome
  obtain ⟨g, hg, haccg⟩ := hsome
  have haccm : isMimeTypeAccepted g m = true := isMimeTypeAccepted_trans hacc haccg
  refine hempty s hs ?_
  rw [List.find?_isSome]
  exact ⟨g, hg, haccm⟩

/-- Restricting a filtered list by a further test satisfied by its head
keeps the same head. -/
theorem filter_and_head {α : Type} (p q : α → Bool) :
    ∀ (cs : List α) (h : α) (t : List α), List.filter p cs = h :: t → q h = true →
      ∃ t2, List.filter (fun a => p a && q a) cs = h :: t2 := by
  intro cs
  induction cs with
  | nil => intro h t hf _; simp at hf
  | cons a rest ih =>
    intro h t hf hq
    by_cases hp : p a
    · rw [List.filter_cons_of_pos hp] at hf
      obtain ⟨rfl, rfl⟩ : a = h ∧ List.filter p rest = t := by
        constructor <;> [exact (List.cons.injEq _ _ _ _ ▸ hf).1;
          exact (List.cons.injEq _ _ _ _ ▸ hf).2]
      refine ⟨List.filter (fun a => p a && q a) rest, ?_⟩
      rw [List.filter_cons_of_pos]
      simp [hp, hq]
    · rw [List.filter_cons_of_neg hp] at hf
      obtain ⟨t2, ht2⟩ := ih h t hf hq
      refine ⟨t2, ?_⟩
      rw [List.filter_cons_of_neg, ht2]
      simp [hp]

/-- The first service returned for a pattern supports the pattern. -/
theorem head_supports_pattern {m : MimeType} {cs : List ServiceConfig}
    {s : ServiceConfig} {t : List ServiceConfig}
    (h : selectServicesForFormat m cs = s :: t) :
    s ∈ cs ∧ (s.capabilities.output_formats.find?
      (fun f => isMimeTypeAccepted f m)).isSome = true := by
  have hs : s ∈ selectServicesForFormat m cs := by
    rw [h]; exact List.mem_cons_self s t
  exact of_mem_selectServicesForFormat hs

/-- The pattern loop yields no format exactly when no pattern matches any
candidate service. -/
theorem selectFormatLoop_none_iff (ms : List MimeType) (cs : List ServiceConfig) :
    selectFormatLoop ms cs = none ↔ ∀ m ∈ ms, selectServicesForFormat m cs = [] := by
  induction ms with
  | nil => simp [selectFormatLoop]
  | cons m rest ih =>
    simp only [selectFormatLoop]
    cases hsv : selectServicesForFormat m cs with
    | nil =>
      simp [ih, hsv, List.forall_mem_cons]
    | cons s t =>
      obtain ⟨-, hsome⟩ := head_supports_pattern hsv
      obtain ⟨g, hg⟩ := Option.isSome_iff_exists.mp hsome
      simp [hg, hsv]

/-- A format produced by the pattern loop is carried by some candidate and
accepted by some pattern of the list. -/
theorem selectFormatLoop_some_char {ms : List MimeType} {cs : List ServiceConfig}
    {f : MimeType} (h : selectFormatLoop ms cs = some f) :
    ∃ s ∈ cs, f ∈ s.capabilities.output_formats
      ∧ ∃ m ∈ ms, isMimeTypeAccepted f m = true := by
  induction ms with
  | nil => simp [selectFormatLoop] at h
  | cons m rest ih =>
    simp only [selectFormatLoop] at h
    cases hsv : selectServicesForFormat m cs with
    | nil =>
      rw [hsv] at h
      simp only at h
      obtain ⟨s, hs, hf, m2, hm2, hacc⟩ := ih h
      exact ⟨s, hs, hf, m2, List.mem_cons_of_mem m hm2, hacc⟩
    | cons s t =>
      rw [hsv] at h
      simp only at h
      cases hfind : s.capabilities.output_formats.find? (fun g => isMimeTypeAccepted g m) with
      | none =>
        rw [hfind] at h
        simp only at h
        obtain ⟨s2, hs2, hf2, m2, hm2, hacc⟩ := ih h
        exact ⟨s2, hs2, hf2, m2, List.mem_cons_of_mem m hm2, hacc⟩
      | some g =>
        rw [hfind] at h
        simp only [Option.some.injEq] at h
        obtain ⟨hs, -⟩ := head_supports_pattern hsv
        have hacc : isMimeTypeAccepted g m = true := by
          have := List.find?_some hfind
          simpa using this
        exact ⟨s, hs, h ▸ List.mem_of_find?_eq_some hfind, m, List.mem_cons_self m rest,
          h ▸ hacc⟩

/-- Narrowing the candidates to the resolved format re-resolves to the same
format: the head service stays the head of the narrowed filtered lists. -/
theorem selectFormatLoop_narrow_stable {ms : List MimeType} {cs : List ServiceConfig}
    {g : MimeType} (h : selectFormatLoop ms cs = some g) :
    selectFormatLoop ms (selectServicesForFormat g cs) = some g := by
  induction ms with
  | nil => simp [selectFormatLoop] at h
  | cons m rest ih =>
    simp only [selectFormatLoop] at h ⊢
    cases hsv : selectServicesForFormat m cs with
    | nil =>
      have hempty : selectServicesForFormat m (selectServicesForFormat g cs) = [] := by
        unfold selectServicesForFormat at hsv ⊢
        rw [List.filter_eq_nil_iff] at hsv
        rw [List.filter_filter, List.filter_eq_nil_iff]
        intro a ha hand
        rw [Bool.and_eq_true] at hand
        exact hsv a ha hand.1
      rw [hsv] at h
      simp only at h
      rw [hempty]
      simp only
      exact ih h
    | cons s t =>
      obtain ⟨-, hsome⟩ := head_supports_pattern hsv
      obtain ⟨g0, hg0⟩ := Option.isSome_iff_exists.mp hsome
      rw [hsv] at h
      simp only [hg0, Option.some.injEq] at h
      subst h
      have hqs : (s.capabilities.output_formats.find?
          (fun f => isMimeTypeAccepted f g0)).isSome = true := by
        rw [List.find?_isSome]
        exact ⟨g0, List.mem_of_find?_eq_some hg0, isMimeTypeAccepted_refl g0⟩
      have hsv2 : List.filter (fun config =>
          (config.capabilities.output_formats.find?
            (fun f => isMimeTypeAccepted f m)).isSome) cs = s :: t := hsv
      obtain ⟨t2, ht2⟩ := filter_and_head _
        (fun config => (config.capabilities.output_formats.find?
          (fun f => isMimeTypeAccepted f g0)).isSome)
        cs s t hsv2 hqs
      have hnarrow : selectServicesForFormat m (selectServicesForFormat g0 cs) = s :: t2 := by
        unfold selectServicesForFormat
        rw [List.filter_filter]
        exact ht2
      rw [hnarrow]
      simp only [hg0]

/-- The code's pattern loop agrees with the specification's format
resolution: the fall-through on a non-empty filtered set whose first service
yields no accepted format never happens, because the first service passed
the very acceptance filter. -/
theorem selectFormatLoop_eq_spec (ms : List MimeType) (cs : List ServiceConfig) :
    selectFormatLoop ms cs = resolveFormatSpec ms cs := by
  induction ms with
  | nil => rfl
  | cons m rest ih =>
    simp only [selectFormatLoop, resolveFormatSpec]
    cases hsv : selectServicesForFormat m cs with
    | nil => simpa using ih
    | cons s t =>
      obtain ⟨-, hsome⟩ := head_supports_pattern hsv
      obtain ⟨g, hg⟩ := Option.isSome_iff_exists.mp hsome
      simp [hg]

/-! ### Lemmas about the individual filter steps -/

/-- Overwriting the output format leaves the collection test unchanged. -/
theorem isCollectionMatch_setFmt (op : DataOperation) (f : MimeType) (c : ServiceConfig) :
    isCollectionMatch (setOutputFormat op f) c = isCollectionMatch op c := rfl

/-- Overwriting the output format leaves variable subsetting need unchanged. -/
theorem requiresVariableSubsetting_setFmt (op : DataOperation) (f : MimeType) :
    requiresVariableSubsetting (setOutputFormat op f) = requiresVariableSubsetting op := rfl

/-- Overwriting the output format leaves spatial subsetting need unchanged. -/
theorem requiresSpatialSubsetting_setFmt (op : DataOperation) (f : MimeType) :
    requiresSpatialSubsetting (setOutputFormat op f) = requiresSpatialSubsetting op := rfl

/-- Overwriting the output format leaves shapefile subsetting need unchanged. -/
theorem requiresShapefileSubsetting_setFmt (op : DataOperation) (f : MimeType) :
    requiresShapefileSubsetting (setOutputFormat op f) = requiresShapefileSubsetting op := rfl

/-- Overwriting the output format leaves reprojection need unchanged. -/
theorem requiresReprojection_setFmt (op : DataOperation) (f : MimeType) :
    requiresReprojection (setOutputFormat op f) = requiresReprojection op := rfl

/-- After overwriting the output format, reformatting is required. -/
theorem requiresReformatting_setFmt (op : DataOperation) (f : MimeType)
    (ctx : RequestContext) : requiresReformatting (setOutputFormat op f) ctx = true := rfl

/-- Overwriting the output format with the value it already has changes
nothing. -/
theorem setOutputFormat_self {op : DataOperation} {f : MimeType}
    (h : op.outputFormat = some f) : setOutputFormat op f = op := by
  cases op
  simp only [setOutputFormat] at h ⊢
  simp_all

/-- A request that need not be strictly matched keeps that status when its
output format is overwritten. -/
theorem requiresStrictCapabilitiesMatching_setFmt {op : DataOperation}
    {ctx : RequestContext} (f : MimeType)
    (h : requiresStrictCapabilitiesMatching op ctx = false) :
    requiresStrictCapabilitiesMatching (setOutputFormat op f) ctx = false := by
  simp only [requiresStrictCapabilitiesMatching, Bool.or_eq_false_iff,
    Bool.and_eq_false_iff] at h ⊢
  refine ⟨?_, ?_⟩
  · rw [requiresSpatialSubsetting_setFmt, requiresShapefileSubsetting_setFmt]
    exact h.1
  · rw [requiresReformatting_setFmt]
    simp

/-- The collection filter ignores the output-format field. -/
theorem insensitive_filterCollectionMatches : Insensitive filterCollectionMatches := by
  intro op f ctx cs r
  simp only [filterCollectionMatches, isCollectionMatch_setFmt]
  by_cases h : (cs.filter (fun config => isCollectionMatch op config)).isEmpty <;>
    simp [h, retag]

/-- The variable-subsetting filter ignores the output-format field. -/
theorem insensitive_filterVariableSubsettingMatches :
    Insensitive filterVariableSubsettingMatches := by
  intro op f ctx cs r
  simp only [filterVariableSubsettingMatches, requiresVariableSubsetting_setFmt]
  by_cases hreq : requiresVariableSubsetting op
  · by_cases h : (supportsVariableSubsetting cs).isEmpty <;> simp [hreq, h, retag]
  · by_cases h : cs.isEmpty <;> simp [hreq, h, retag]

/-- The spatial-subsetting filter ignores the output-format field. -/
theorem insensitive_filterSpatialSubsettingMatches :
    Insensitive filterSpatialSubsettingMatches := by
  intro op f ctx cs r
  simp only [filterSpatialSubsettingMatches, requiresSpatialSubsetting_setFmt]
  by_cases hreq : requiresSpatialSubsetting op
  · by_cases h : (supportsSpatialSubsetting cs).isEmpty <;> simp [hreq, h, retag]
  · by_cases h : cs.isEmpty <;> simp [hreq, h, retag]

/-- The shapefile-subsetting filter ignores the output-format field. -/
theorem insensitive_filterShapefileSubsettingMatches :
    Insensitive filterShapefileSubsettingMatches := by
  intro op f ctx cs r
  simp only [filterShapefileSubsettingMatches, requiresShapefileSubsetting_setFmt]
  by_cases hreq : requiresShapefileSubsetting op
  · by_cases h : (supportsShapefileSubsetting cs).isEmpty <;> simp [hreq, h, retag]
  · by_cases h : cs.isEmpty <;> simp [hreq, h, retag]

/-- The reprojection filter ignores the output-format field. -/
theorem insensitive_filterReprojectionMatches :
    Insensitive filterReprojectionMatches := by
  intro op f ctx cs r
  simp only [filterReprojectionMatches, requiresReprojection_setFmt]
  by_cases hreq : requiresReprojection op
  · by_cases h : (supportsReprojection cs).isEmpty <;> simp [hreq, h, retag]
  · by_cases h : cs.isEmpty <;> simp [hreq, h, retag]

/-- The collection filter never returns an empty list. -/
theorem stepNE_filterCollectionMatches : StepNE filterCollectionMatches := by
  intro op ctx cs r m r2 h
  simp only [filterCollectionMatches] at h
  split at h
  · cases h
  · rename_i hne
    injection h with h3
    injection h3 with hm hr
    intro hnil
    rw [hnil] at hm
    rw [hm] at hne
    simp at hne

/-- The variable-subsetting filter never returns an empty list. -/
theorem stepNE_filterVariableSubsettingMatches :
    StepNE filterVariableSubsettingMatches := by
  intro op ctx cs r m r2 h
  simp only [filterVariableSubsettingMatches] at h
  split at h <;> split at h
  · cases h
  · rename_i hne
    injection h with h3
    injection h3 with hm hr
    intro hnil
    rw [hnil] at hm
    rw [hm] at hne
    simp at hne
  · cases h
  · rename_i hne
    injection h with h3
    injection h3 with hm hr
    intro hnil
    rw [hnil] at hm
    rw [hm] at hne
    simp at hne

/-- The spatial-subsetting filter never returns an empty list. -/
theorem stepNE_filterSpatialSubsettingMatches :
    StepNE filterSpatialSubsettingMatches := by
  intro op ctx cs r m r2 h
  simp only [filterSpatialSubsettingMatches] at h
  split at h <;> split at h
  · cases h
  · rename_i hne
    injection h with h3
    injection h3 with hm hr
    intro hnil
    rw [hnil] at hm
    rw [hm] at hne
    simp at hne
  · cases h
  · rename_i hne
    injection h with h3
    injection h3 with hm hr
    intro hnil
    rw [hnil] at hm
    rw [hm] at hne
    simp at hne

/-- The shapefile-subsetting filter never returns an empty list. -/
theorem stepNE_filterShapefileSubsettingMatches :
    StepNE filterShapefileSubsettingMatches := by
  intro op ctx cs r m r2 h
  simp only [filterShapefileSubsettingMatches] at h
  split at h <;> split at h
  · cases h
  · rename_i hne
    injection h with h3
    injection h3 with hm hr
    intro hnil
    rw [hnil] at hm
    rw [hm] at hne
    simp at hne
  · cases h
  · rename_i hne
    injection h with h3
    injection h3 with hm hr
    intro hnil
    rw [hnil] at hm
    rw [hm] at hne
    simp at hne

/-- The reprojection filter never returns an empty list. -/
theorem stepNE_filterReprojectionMatches : StepNE filterReprojectionMatches := by
  intro op ctx cs r m r2 h
  simp only [filterReprojectionMatches] at h
  split at h <;> split at h
  · cases h
  · rename_i hne
    injection h with h3
    injection h3 with hm hr
    intro hnil
    rw [hnil] at hm
    rw [hm] at hne
    simp at hne
  · cases h
  · rename_i hne
    injection h with h3
    injection h3 with hm hr
    intro hnil
    rw [hnil] at hm
    rw [hm] at hne
    simp at hne

/-- The output-format filter never returns an empty list. -/
theorem stepNE_filterOutputFormatMatches : StepNE filterOutputFormatMatches := by
  intro op ctx cs r m r2 h
  simp only [filterOutputFormatMatches] at h
  split at h <;> split at h
  · cases h
  · rename_i hne
    injection h with h3
    injection h3 with hm hr
    intro hnil
    rw [hnil] at hm
    rw [hm] at hne
    simp at hne
  · cases h
  · rename_i hne
    injection h with h3
    injection h3 with hm hr
    intro hnil
    rw [hnil] at hm
    rw [hm] at hne
    simp at hne

/-- A filter step whose successful output is a sublist of its input,
keeping the input's order. -/
def StepSub (fn : FilterFn) : Prop :=
  ∀ operation context configs reqOps m r2,
    fn operation context configs reqOps = Except.ok (m, r2) → m.Sublist configs

/-- The collection filter keeps an in-order sublist of its input. -/
theorem stepSub_filterCollectionMatches : StepSub filterCollectionMatches := by
  intro op ctx cs r m r2 h
  simp only [filterCollectionMatches] at h
  split at h
  · cases h
  · injection h with h3
    injection h3 with hm hr
    rw [← hm]
    exact List.filter_sublist cs

/-- The variable-subsetting filter keeps an in-order sublist of its input. -/
theorem stepSub_filterVariableSubsettingMatches :
    StepSub filterVariableSubsettingMatches := by
  intro op ctx cs r m r2 h
  simp only [filterVariableSubsettingMatches] at h
  split at h <;> split at h
  · cases h
  · injection h with h3
    injection h3 with hm hr
    rw [← hm]
    exact List.filter_sublist cs
  · cases h
  · injection h with h3
    injection h3 with hm hr
    rw [← hm]

/-- The spatial-subsetting filter keeps an in-order sublist of its input. -/
theorem stepSub_filterSpatialSubsettingMatches :
    StepSub filterSpatialSubsettingMatches := by
  intro op ctx cs r m r2 h
  simp only [filterSpatialSubsettingMatches] at h
  split at h <;> split at h
  · cases h
  · injection h with h3
    injection h3 with hm hr
    rw [← hm]
    exact List.filter_sublist cs
  · cases h
  · injection h with h3
    injection h3 with hm hr
    rw [← hm]

/-- The shapefile-subsetting filter keeps an in-order sublist of its input. -/
theorem stepSub_filterShapefileSubsettingMatches :
    StepSub filterShapefileSubsettingMatches := by
  intro op ctx cs r m r2 h
  simp only [filterShapefileSubsettingMatches] at h
  split at h <;> split at h
  · cases h
  · injection h with h3
    injection h3 with hm hr
    rw [← hm]
    exact List.filter_sublist cs
  · cases h
  · injection h with h3
    injection h3 with hm hr
    rw [← hm]

/-- The reprojection filter keeps an in-order sublist of its input. -/
theorem stepSub_filterReprojectionMatches : StepSub filterReprojectionMatches := by
  intro op ctx cs r m r2 h
  simp only [filterReprojectionMatches] at h
  split at h <;> split at h
  · cases h
  · injection h with h3
    injection h3 with hm hr
    rw [← hm]
    exact List.filter_sublist cs
  · cases h
  · injection h with h3
    injection h3 with hm hr
    rw [← hm]

/-- The output-format filter keeps an in-order sublist of its input. -/
theorem stepSub_filterOutputFormatMatches : StepSub filterOutputFormatMatches := by
  intro op ctx cs r m r2 h
  simp only [filterOutputFormatMatches] at h
  split at h
  · cases hsel : selectFormat op ctx cs with
    | none =>
      rw [hsel] at h
      simp at h
    | some f =>
      rw [hsel] at h
      simp only at h
      split at h
      · cases h
      · injection h with h3
        injection h3 with hm hr
        rw [← hm]
        exact List.filter_sublist cs
  · split at h
    · cases h
    · injection h with h3
      injection h3 with hm hr
      rw [← hm]

/-- All strict-chain steps keep in-order sublists on success. -/
theorem allFilterFns_stepSub : ∀ fn ∈ allFilterFns, StepSub fn := by
  intro fn hfn
  simp only [allFilterFns, List.mem_cons, List.not_mem_nil, or_false] at hfn
  rcases hfn with rfl | rfl | rfl | rfl | rfl | rfl
  · exact stepSub_filterCollectionMatches
  · exact stepSub_filterVariableSubsettingMatches
  · exact stepSub_filterSpatialSubsettingMatches
  · exact stepSub_filterShapefileSubsettingMatches
  · exact stepSub_filterReprojectionMatches
  · exact stepSub_filterOutputFormatMatches

/-- A chain of sublist-keeping steps yields an in-order sublist of the
initial candidate list. -/
theorem runFilters_sublist {fns : List FilterFn} (hall : ∀ g ∈ fns, StepSub g) :
    ∀ {op : DataOperation} {ctx : RequestContext} {cs : List ServiceConfig}
      {r : List String} {m : List ServiceConfig} {r2 : List String},
      runFilters fns op ctx cs r = Except.ok (m, r2) → m.Sublist cs := by
  induction fns with
  | nil =>
    intro op ctx cs r m r2 h
    simp only [runFilters] at h
    injection h with h3
    injection h3 with hm hr
    rw [← hm]
  | cons fn rest ih =>
    intro op ctx cs r m r2 h
    simp only [runFilters] at h
    cases hstep : fn op ctx cs r with
    | error e =>
      rw [hstep] at h
      cases h
    | ok x =>
      obtain ⟨m1, r1⟩ := x
      rw [hstep] at h
      simp only at h
      have hsub1 : m1.Sublist cs :=
        hall fn (List.mem_cons_self fn rest) op ctx cs r m1 r1 hstep
      have hsub2 : m.Sublist m1 :=
        ih (fun g hg => hall g (List.mem_cons_of_mem fn hg)) h
      exact hsub2.trans hsub1

/-! ### Lemmas about chained filter runs -/

/-- Running an appended chain runs the first part, then the second on its
output. -/
theorem runFilters_append (fns1 fns2 : List FilterFn) (op : DataOperation)
    (ctx : RequestContext) (cs : List ServiceConfig) (r : List String) :
    runFilters (fns1 ++ fns2) op ctx cs r =
      match runFilters fns1 op ctx cs r with
      | Except.error e => Except.error e
      | Except.ok (m, r2) => runFilters fns2 op ctx m r2 := by
  induction fns1 generalizing cs r with
  | nil => simp [runFilters]
  | cons fn rest ih =>
    simp only [List.cons_append, runFilters]
    cases fn op ctx cs r with
    | error e => rfl
    | ok x =>
      obtain ⟨m, r2⟩ := x
      exact ih m r2

/-- A chain of steps that ignore the output-format field ignores it as a
whole. -/
theorem runFilters_insensitive (fns : List FilterFn) (hall : ∀ fn ∈ fns, Insensitive fn)
    (op : DataOperation) (f : MimeType) (ctx : RequestContext)
    (cs : List ServiceConfig) (r : List String) :
    runFilters fns (setOutputFormat op f) ctx cs r =
      retag (setOutputFormat op f) (runFilters fns op ctx cs r) := by
  induction fns generalizing cs r with
  | nil => rfl
  | cons fn rest ih =>
    have hfn : Insensitive fn := hall fn (List.mem_cons_self fn rest)
    have hrest : ∀ g ∈ rest, Insensitive g := fun g hg => hall g (List.mem_cons_of_mem fn hg)
    simp only [runFilters]
    rw [hfn]
    cases hres : fn op ctx cs r with
    | error e => simp [retag]
    | ok x =>
      obtain ⟨m, r2⟩ := x
      simp only [retag]
      exact ih hrest m r2

/-- A successful run of a chain of non-empty-preserving steps keeps a
non-empty candidate list, provided it starts from one. -/
theorem runFilters_ok_ne_of_ne (fns : List FilterFn) (hall : ∀ g ∈ fns, StepNE g)
    (op : DataOperation) (ctx : RequestContext) :
    ∀ (cs : List ServiceConfig) (r : List String) (m : List ServiceConfig)
      (r2 : List String), cs ≠ [] →
      runFilters fns op ctx cs r = Except.ok (m, r2) → m ≠ [] := by
  induction fns with
  | nil =>
    intro cs r m r2 hcs h
    simp only [runFilters] at h
    injection h with h3
    injection h3 with hm hr
    rw [← hm]
    exact hcs
  | cons fn rest ih =>
    intro cs r m r2 hcs h
    have hrest : ∀ g ∈ rest, StepNE g := fun g hg => hall g (List.mem_cons_of_mem fn hg)
    simp only [runFilters] at h
    cases hfn : fn op ctx cs r with
    | error e => rw [hfn] at h; cases h
    | ok x =>
      obtain ⟨m1, r1⟩ := x
      rw [hfn] at h
      have hm1 : m1 ≠ [] := hall fn (List.mem_cons_self fn rest) op ctx cs r m1 r1 hfn
      exact ih hrest m1 r1 m r2 hm1 h

/-- A successful run of a non-empty chain of non-empty-preserving steps
returns a non-empty candidate list. -/
theorem runFilters_cons_ok_ne {fn : FilterFn} {rest : List FilterFn}
    (hall : ∀ g ∈ fn :: rest, StepNE g) {op : DataOperation} {ctx : RequestContext}
    {cs : List ServiceConfig} {r : List String} {m : List ServiceConfig}
    {r2 : List String} (h : runFilters (fn :: rest) op ctx cs r = Except.ok (m, r2)) :
    m ≠ [] := by
  have hrest : ∀ g ∈ rest, StepNE g := fun g hg => hall g (List.mem_cons_of_mem fn hg)
  simp only [runFilters] at h
  cases hfn : fn op ctx cs r with
  | error e => rw [hfn] at h; cases h
  | ok x =>
    obtain ⟨m1, r1⟩ := x
    rw [hfn] at h
    have hm1 : m1 ≠ [] := hall fn (List.mem_cons_self fn rest) op ctx cs r m1 r1 hfn
    exact runFilters_ok_ne_of_ne rest hrest op ctx m1 r1 m r2 hm1 h

/-- A successful run of a chain ending in a step isolates that last step. -/
theorem runFilters_last_ok {fns1 : List FilterFn} {fn : FilterFn} {op : DataOperation}
    {ctx : RequestContext} {cs : List ServiceConfig} {r : List String}
    {m : List ServiceConfig} {r2 : List String}
    (h : runFilters (fns1 ++ [fn]) op ctx cs r = Except.ok (m, r2)) :
    ∃ cs1 r1, runFilters fns1 op ctx cs r = Except.ok (cs1, r1)
      ∧ fn op ctx cs1 r1 = Except.ok (m, r2) := by
  rw [runFilters_append] at h
  cases hrf : runFilters fns1 op ctx cs r with
  | error e => rw [hrf] at h; cases h
  | ok x =>
    obtain ⟨cs1, r1⟩ := x
    rw [hrf] at h
    simp only [runFilters] at h
    cases hfn : fn op ctx cs1 r1 with
    | error e => rw [hfn] at h; cases h
    | ok y =>
      obtain ⟨m1, r3⟩ := y
      rw [hfn] at h
      injection h with h3
      exact ⟨cs1, r1, rfl, by rw [hfn, h3]⟩

/-- The strict chain is its soft prefix followed by the format step. -/
def preAllFns : List FilterFn :=
  [filterCollectionMatches,
   filterVariableSubsettingMatches,
   filterSpatialSubsettingMatches,
   filterShapefileSubsettingMatches,
   filterReprojectionMatches]

/-- The reduced chain is its prefix followed by the format step. -/
def preReqFns : List FilterFn :=
  [filterCollectionMatches,
   filterVariableSubsettingMatches,
   filterReprojectionMatches]

/-- The strict chain decomposes into prefix and final format step. -/
theorem allFilterFns_decomp : allFilterFns = preAllFns ++ [filterOutputFormatMatches] := rfl

/-- The reduced chain decomposes into prefix and final format step. -/
theorem requiredFilterFns_decomp :
    requiredFilterFns = preReqFns ++ [filterOutputFormatMatches] := rfl

/-- All strict-prefix steps ignore the output-format field. -/
theorem preAllFns_insensitive : ∀ fn ∈ preAllFns, Insensitive fn := by
  intro fn hfn
  simp only [preAllFns, List.mem_cons, List.not_mem_nil, or_false] at hfn
  rcases hfn with rfl | rfl | rfl | rfl | rfl
  · exact insensitive_filterCollectionMatches
  · exact insensitive_filterVariableSubsettingMatches
  · exact insensitive_filterSpatialSubsettingMatches
  · exact insensitive_filterShapefileSubsettingMatches
  · exact insensitive_filterReprojectionMatches

/-- All reduced-prefix steps ignore the output-format field. -/
theorem preReqFns_insensitive : ∀ fn ∈ preReqFns, Insensitive fn := by
  intro fn hfn
  simp only [preReqFns, List.mem_cons, List.not_mem_nil, or_false] at hfn
  rcases hfn with rfl | rfl | rfl
  · exact insensitive_filterCollectionMatches
  · exact insensitive_filterVariableSubsettingMatches
  · exact insensitive_filterReprojectionMatches

/-- All strict-chain steps return non-empty lists on success. -/
theorem allFilterFns_stepNE : ∀ fn ∈ allFilterFns, StepNE fn := by
  intro fn hfn
  simp only [allFilterFns, List.mem_cons, List.not_mem_nil, or_false] at hfn
  rcases hfn with rfl | rfl | rfl | rfl | rfl | rfl
  · exact stepNE_filterCollectionMatches
  · exact stepNE_filterVariableSubsettingMatches
  · exact stepNE_filterSpatialSubsettingMatches
  · exact stepNE_filterShapefileSubsettingMatches
  · exact stepNE_filterReprojectionMatches
  · exact stepNE_filterOutputFormatMatches

/-- All reduced-chain steps return non-empty lists on success. -/
theorem requiredFilterFns_stepNE : ∀ fn ∈ requiredFilterFns, StepNE fn := by
  intro fn hfn
  simp only [requiredFilterFns, List.mem_cons, List.not_mem_nil, or_false] at hfn
  rcases hfn with rfl | rfl | rfl | rfl
  · exact stepNE_filterCollectionMatches
  · exact stepNE_filterVariableSubsettingMatches
  · exact stepNE_filterReprojectionMatches
  · exact stepNE_filterOutputFormatMatches

/-! ### Lemmas about filterServiceConfigs -/

/-- A thrown signal makes `filterServiceConfigs` return the sentinel with
the rendered diagnostic and an unmodified operation. -/
theorem fsc_of_error {op : DataOperation} {ctx : RequestContext}
    {cs : List ServiceConfig} {fns : List FilterFn} {e : UnsupportedOperation}
    (h : runFilters fns op ctx cs [] = Except.error e) :
    filterServiceConfigs op ctx cs fns =
      (ChooseResult.noOp, op, some (unsupportedCombinationMessage e)) := by
  simp [filterServiceConfigs, h]

/-- A sentinel result of `filterServiceConfigs` comes from a thrown signal:
the operation is unchanged and the diagnostic is the rendered signal. -/
theorem fsc_noOp_inv {op : DataOperation} {ctx : RequestContext}
    {cs : List ServiceConfig} {fns : List FilterFn} {op2 : DataOperation}
    {w : Option String}
    (h : filterServiceConfigs op ctx cs fns = (ChooseResult.noOp, op2, w)) :
    op2 = op ∧ ∃ e, runFilters fns op ctx cs [] = Except.error e
      ∧ w = some (unsupportedCombinationMessage e) := by
  unfold filterServiceConfigs at h
  cases hrf : runFilters fns op ctx cs [] with
  | error e =>
    rw [hrf] at h
    simp only [Prod.mk.injEq] at h
    exact ⟨h.2.1.symm, e, rfl, h.2.2.symm⟩
  | ok x =>
    obtain ⟨m, r2⟩ := x
    rw [hrf] at h
    simp only at h
    cases hsel : selectFormat op ctx m with
    | some f =>
      rw [hsel] at h
      simp only at h
      cases hnar : selectServicesForFormat f m with
      | nil => rw [hnar] at h; simp at h
      | cons c t => rw [hnar] at h; simp at h
    | none =>
      rw [hsel] at h
      simp only at h
      cases m with
      | nil => simp at h
      | cons c t => simp at h

/-- A service result of `filterServiceConfigs` comes from a successful run:
no diagnostic is written and the service is the head of the final list,
either without format narrowing and an unchanged operation, or after
narrowing by the resolved format written into the operation. -/
theorem fsc_svc_inv {op : DataOperation} {ctx : RequestContext}
    {cs : List ServiceConfig} {fns : List FilterFn} {c : ServiceConfig}
    {op2 : DataOperation} {w : Option String}
    (h : filterServiceConfigs op ctx cs fns = (ChooseResult.svc c, op2, w)) :
    w = none ∧ ∃ m r2, runFilters fns op ctx cs [] = Except.ok (m, r2) ∧
      ((selectFormat op ctx m = none ∧ op2 = op ∧ ∃ t, m = c :: t)
       ∨ (∃ f t, selectFormat op ctx m = some f ∧ op2 = setOutputFormat op f
            ∧ selectServicesForFormat f m = c :: t)) := by
  unfold filterServiceConfigs at h
  cases hrf : runFilters fns op ctx cs [] with
  | error e => rw [hrf] at h; simp at h
  | ok x =>
    obtain ⟨m, r2⟩ := x
    rw [hrf] at h
    simp only at h
    cases hsel : selectFormat op ctx m with
    | some f =>
      rw [hsel] at h
      simp only at h
      cases hnar : selectServicesForFormat f m with
      | nil => rw [hnar] at h; simp at h
      | cons c0 t =>
        rw [hnar] at h
        simp only at h
        simp only [Prod.mk.injEq, ChooseResult.svc.injEq] at h
        obtain ⟨hc, hop, hw⟩ := h
        refine ⟨hw.symm, m, r2, rfl, Or.inr ⟨f, t, hsel, hop.symm, ?_⟩⟩
        rw [hnar, hc]
    | none =>
      rw [hsel] at h
      simp only at h
      cases m with
      | nil => simp at h
      | cons c0 t =>
        simp only [Prod.mk.injEq, ChooseResult.svc.injEq] at h
        obtain ⟨hc, hop, hw⟩ := h
        refine ⟨hw.symm, c0 :: t, r2, rfl, Or.inl ⟨hsel, hop.symm, t, ?_⟩⟩
        rw [hc]

/-- After a successful format step, re-narrowing the returned candidates by
any format the post-chain resolution picks is non-empty. -/
theorem chain_post_narrow_ne {op : DataOperation} {ctx : RequestContext}
    {cs1 : List ServiceConfig} {r1 : List String} {m : List ServiceConfig}
    {r2 : List String} {f : MimeType}
    (hfmt : filterOutputFormatMatches op ctx cs1 r1 = Except.ok (m, r2))
    (hsel : selectFormat op ctx m = some f) :
    selectServicesForFormat f m ≠ [] := by
  cases hof : op.outputFormat with
  | some f0 =>
    have hf : f = f0 := by
      unfold selectFormat at hsel
      rw [hof] at hsel
      exact (Option.some.inj hsel).symm
    subst hf
    have hreq : requiresReformatting op ctx = true := by
      unfold requiresReformatting
      rw [hof]
      rfl
    have hselcs : selectFormat op ctx cs1 = some f := by
      unfold selectFormat
      rw [hof]
    simp only [filterOutputFormatMatches, hreq, if_true, hselcs] at hfmt
    split at hfmt
    · cases hfmt
    · rename_i hne
      injection hfmt with h3
      injection h3 with hm hr
      rw [← hm, selectServicesForFormat_idem]
      intro hnil
      rw [hnil] at hne
      simp at hne
  | none =>
    unfold selectFormat at hsel
    rw [hof] at hsel
    obtain ⟨s, hs, hfm, -⟩ := selectFormatLoop_some_char hsel
    exact selectServicesForFormat_ne_nil hs hfm

/-- Resolving a format on an operation whose format was just written yields
that format. -/
theorem selectFormat_setFmt (op : DataOperation) (f : MimeType)
    (ctx : RequestContext) (cs : List ServiceConfig) :
    selectFormat (setOutputFormat op f) ctx cs = some f := rfl

/-- Writing the same output format twice is writing it once. -/
theorem setOutputFormat_idem (op : DataOperation) (f : MimeType) :
    setOutputFormat (setOutputFormat op f) f = setOutputFormat op f := rfl

/-- Evaluation of the format step on an operation whose format was written:
reformatting is required and the candidates narrow to the written format. -/
theorem fmt_setFmt_eval (op : DataOperation) (f : MimeType) (ctx : RequestContext)
    (cs1 : List ServiceConfig) (r1 : List String) :
    filterOutputFormatMatches (setOutputFormat op f) ctx cs1 r1 =
      (if (selectServicesForFormat f cs1).isEmpty
       then Except.error ⟨setOutputFormat op f, r1 ++ ["reformatting to " ++ mtText f]⟩
       else Except.ok (selectServicesForFormat f cs1,
         r1 ++ ["reformatting to " ++ mtText f])) := rfl

/-- Inversion of a successful format step when reformatting is required. -/
theorem fmt_ok_true_inv {op : DataOperation} {ctx : RequestContext}
    {cs1 : List ServiceConfig} {r1 : List String} {m : List ServiceConfig}
    {r2 : List String} (hreq : requiresReformatting op ctx = true)
    (hfmt : filterOutputFormatMatches op ctx cs1 r1 = Except.ok (m, r2)) :
    ∃ g, selectFormat op ctx cs1 = some g ∧ m = selectServicesForFormat g cs1 := by
  simp only [filterOutputFormatMatches, hreq, if_true] at hfmt
  cases hselc : selectFormat op ctx cs1 with
  | none => rw [hselc] at hfmt; simp at hfmt
  | some g =>
    rw [hselc] at hfmt
    simp only at hfmt
    split at hfmt
    · cases hfmt
    · injection hfmt with h3
      injection h3 with hm hr
      exact ⟨g, rfl, hm.symm⟩

/-- Inversion of a successful format step when reformatting is not
required: the candidates and the log pass through. -/
theorem fmt_ok_false_inv {op : DataOperation} {ctx : RequestContext}
    {cs1 : List ServiceConfig} {r1 : List String} {m : List ServiceConfig}
    {r2 : List String} (hreq : requiresReformatting op ctx = false)
    (hfmt : filterOutputFormatMatches op ctx cs1 r1 = Except.ok (m, r2)) :
    m = cs1 ∧ r2 = r1 := by
  simp only [filterOutputFormatMatches, hreq, Bool.false_eq_true, if_false] at hfmt
  split at hfmt
  · cases hfmt
  · injection hfmt with h3
    injection h3 with hm hr
    exact ⟨hm.symm, hr.symm⟩

/-- Full evaluation of a chain on an operation whose output format was
written, given the prefix result on the unwritten operation: the run
narrows the prefix output by the written format and succeeds or throws on
whether that narrowing is empty. -/
theorem fsc_setFmt_of_pre_ok {pre : List FilterFn} (hIns : ∀ fn ∈ pre, Insensitive fn)
    {op : DataOperation} {f : MimeType} {ctx : RequestContext}
    {cs cs1 : List ServiceConfig} {r1 : List String}
    (hpre : runFilters pre op ctx cs [] = Except.ok (cs1, r1)) :
    filterServiceConfigs (setOutputFormat op f) ctx cs (pre ++ [filterOutputFormatMatches]) =
      (match selectServicesForFormat f cs1 with
       | [] => (ChooseResult.noOp, setOutputFormat op f,
           some (unsupportedCombinationMessage ⟨setOutputFormat op f,
             r1 ++ ["reformatting to " ++ mtText f]⟩))
       | c :: _ => (ChooseResult.svc c, setOutputFormat op f, none)) := by
  have hrun : runFilters (pre ++ [filterOutputFormatMatches]) (setOutputFormat op f) ctx cs []
      = (if (selectServicesForFormat f cs1).isEmpty
         then Except.error ⟨setOutputFormat op f, r1 ++ ["reformatting to " ++ mtText f]⟩
         else Except.ok (selectServicesForFormat f cs1,
           r1 ++ ["reformatting to " ++ mtText f])) := by
    rw [runFilters_append, runFilters_insensitive pre hIns, hpre]
    simp only [retag]
    by_cases hemp : (selectServicesForFormat f cs1).isEmpty
    · simp [runFilters, fmt_setFmt_eval, hemp]
    · simp [runFilters, fmt_setFmt_eval, hemp]
  cases hnar : selectServicesForFormat f cs1 with
  | nil =>
    rw [hnar] at hrun
    simp only [List.isEmpty_nil, if_true] at hrun
    exact fsc_of_error hrun
  | cons c t =>
    rw [hnar] at hrun
    simp only [List.isEmpty_cons, Bool.false_eq_true, if_false] at hrun
    unfold filterServiceConfigs
    rw [hrun]
    simp only [selectFormat_setFmt]
    have hidem : selectServicesForFormat f (c :: t) = c :: t := by
      rw [← hnar, selectServicesForFormat_idem, hnar]
    rw [hidem]
    rfl

/-- A chain whose prefix throws also throws after the output format is
written. -/
theorem fsc_setFmt_of_pre_error {pre : List FilterFn}
    (hIns : ∀ fn ∈ pre, Insensitive fn) {op : DataOperation} {f : MimeType}
    {ctx : RequestContext} {cs : List ServiceConfig} {e : UnsupportedOperation}
    (hpre : runFilters pre op ctx cs [] = Except.error e) :
    filterServiceConfigs (setOutputFormat op f) ctx cs (pre ++ [filterOutputFormatMatches]) =
      (ChooseResult.noOp, setOutputFormat op f,
        some (unsupportedCombinationMessage ⟨setOutputFormat op f, e.requestedOperations⟩)) := by
  have hrun : runFilters (pre ++ [filterOutputFormatMatches]) (setOutputFormat op f) ctx cs []
      = Except.error ⟨setOutputFormat op f, e.requestedOperations⟩ := by
    rw [runFilters_append, runFilters_insensitive pre hIns, hpre]
    rfl
  exact fsc_of_error hrun

/-- A format step that throws from a non-empty candidate list on an
operation without an explicit format means no accepted pattern matches any
candidate. -/
theorem strict_error_all_empty {op : DataOperation} {ctx : RequestContext}
    {cs1 : List ServiceConfig} {r1 : List String} {e : UnsupportedOperation}
    (hof : op.outputFormat = none)
    (hfmt : filterOutputFormatMatches op ctx cs1 r1 = Except.error e)
    (hcs1 : cs1 ≠ []) :
    ∀ mt ∈ ctx.requestedMimeTypes, selectServicesForFormat mt cs1 = [] := by
  by_cases hreq : requiresReformatting op ctx
  · simp only [filterOutputFormatMatches, hreq, if_true] at hfmt
    cases hselc : selectFormat op ctx cs1 with
    | some g =>
      exfalso
      have hloop : selectFormatLoop ctx.requestedMimeTypes cs1 = some g := by
        unfold selectFormat at hselc
        rw [hof] at hselc
        exact hselc
      obtain ⟨s, hs, hg, -⟩ := selectFormatLoop_some_char hloop
      have hne : selectServicesForFormat g cs1 ≠ [] := selectServicesForFormat_ne_nil hs hg
      rw [hselc] at hfmt
      simp only at hfmt
      split at hfmt
      · rename_i hemp
        rw [List.isEmpty_iff] at hemp
        exact hne hemp
      · cases hfmt
    | none =>
      have hloop : selectFormatLoop ctx.requestedMimeTypes cs1 = none := by
        unfold selectFormat at hselc
        rw [hof] at hselc
        exact hselc
      exact (selectFormatLoop_none_iff ctx.requestedMimeTypes cs1).mp hloop
  · exfalso
    have hreqF : requiresReformatting op ctx = false := by simpa using hreq
    simp only [filterOutputFormatMatches, hreqF, Bool.false_eq_true, if_false] at hfmt
    split at hfmt
    · rename_i hemp
      rw [List.isEmpty_iff] at hemp
      exact hcs1 hemp
    · cases hfmt

/-- A successful chain on an operation without an explicit format where the
post-chain resolution finds nothing means no accepted pattern matches any
prefix candidate (reformatting cannot have been required). -/
theorem success_post_none_all_empty {op : DataOperation} {ctx : RequestContext}
    {cs1 : List ServiceConfig} {r1 : List String} {m : List ServiceConfig}
    {r2 : List String}
    (hof : op.outputFormat = none)
    (hfmt : filterOutputFormatMatches op ctx cs1 r1 = Except.ok (m, r2))
    (hsel : selectFormat op ctx m = none) :
    requiresReformatting op ctx = false ∧
      (∀ mt ∈ ctx.requestedMimeTypes, selectServicesForFormat mt cs1 = []) := by
  by_cases hreq : requiresReformatting op ctx
  · exfalso
    obtain ⟨g, hselc, hm⟩ := fmt_ok_true_inv hreq hfmt
    have hloop : selectFormatLoop ctx.requestedMimeTypes cs1 = some g := by
      unfold selectFormat at hselc
      rw [hof] at hselc
      exact hselc
    have hstable := selectFormatLoop_narrow_stable hloop
    unfold selectFormat at hsel
    rw [hof, hm] at hsel
    simp only at hsel
    rw [hsel] at hstable
    cases hstable
  · obtain ⟨hm, -⟩ := fmt_ok_false_inv (by simpa using hreq) hfmt
    refine ⟨by simpa using hreq, ?_⟩
    have hloop : selectFormatLoop ctx.requestedMimeTypes cs1 = none := by
      unfold selectFormat at hsel
      rw [hof] at hsel
      rw [← hm]
      exact hsel
    exact (selectFormatLoop_none_iff ctx.requestedMimeTypes cs1).mp hloop

/-- Evaluation of `filterServiceConfigs` on a successful run with no
post-chain format resolution: the head candidate is returned and the
operation is unchanged. -/
theorem fsc_of_ok_none {op : DataOperation} {ctx : RequestContext}
    {cs : List ServiceConfig} {fns : List FilterFn} {c : ServiceConfig}
    {t : List ServiceConfig} {r2 : List String}
    (hrf : runFilters fns op ctx cs [] = Except.ok (c :: t, r2))
    (hsel : selectFormat op ctx (c :: t) = none) :
    filterServiceConfigs op ctx cs fns = (ChooseResult.svc c, op, none) := by
  unfold filterServiceConfigs
  rw [hrf]
  simp only
  rw [hsel]

/-- Evaluation of `filterServiceConfigs` on a successful run whose
post-chain format resolution finds a format: the candidates narrow, the
head of the narrowing is returned and the operation is mutated. -/
theorem fsc_of_ok_some {op : DataOperation} {ctx : RequestContext}
    {cs : List ServiceConfig} {fns : List FilterFn} {m : List ServiceConfig}
    {r2 : List String} {f : MimeType} {c : ServiceConfig} {t : List ServiceConfig}
    (hrf : runFilters fns op ctx cs [] = Except.ok (m, r2))
    (hsel : selectFormat op ctx m = some f)
    (hnar : selectServicesForFormat f m = c :: t) :
    filterServiceConfigs op ctx cs fns =
      (ChooseResult.svc c, setOutputFormat op f, none) := by
  unfold filterServiceConfigs
  rw [hrf]
  simp only
  rw [hsel]
  simp only
  rw [hnar]
  rfl

/-- The result of `filterServiceConfigs` on a chain ending in the format
step is the sentinel or a service, never the undefined value. -/
theorem fsc_shape (pre : List FilterFn) (op : DataOperation) (ctx : RequestContext)
    (cs : List ServiceConfig) :
    (filterServiceConfigs op ctx cs (pre ++ [filterOutputFormatMatches])).1 =
        ChooseResult.noOp
      ∨ ∃ c, (filterServiceConfigs op ctx cs (pre ++ [filterOutputFormatMatches])).1 =
          ChooseResult.svc c := by
  cases hrf : runFilters (pre ++ [filterOutputFormatMatches]) op ctx cs [] with
  | error e => left; rw [fsc_of_error hrf]
  | ok x =>
    obtain ⟨m, r2⟩ := x
    obtain ⟨cs1, r1, hpre, hfmt⟩ := runFilters_last_ok hrf
    have hmne : m ≠ [] := stepNE_filterOutputFormatMatches op ctx cs1 r1 m r2 hfmt
    right
    cases hsel : selectFormat op ctx m with
    | none =>
      cases hm : m with
      | nil => exact absurd hm hmne
      | cons c t =>
        rw [hm] at hrf hsel
        rw [fsc_of_ok_none hrf hsel]
        exact ⟨c, rfl⟩
    | some f =>
      have hnarne : selectServicesForFormat f m ≠ [] := chain_post_narrow_ne hfmt hsel
      cases hnar : selectServicesForFormat f m with
      | nil => exact absurd hnar hnarne
      | cons c t =>
        rw [fsc_of_ok_some hrf hsel hnar]
        exact ⟨c, rfl⟩

/-- Determinism of option equality: two resolutions of the same loop agree. -/
theorem option_some_det {α : Type} {x : Option α} {a b : α}
    (h1 : x = some a) (h2 : x = some b) : a = b := by
  rw [h1] at h2
  exact Option.some.inj h2

/-- Rerunning a chain after a successful run, on the operation as mutated by
that run, reproduces the same matched service and the same operation. -/
theorem fsc_success_idem {pre : List FilterFn} (hIns : ∀ fn ∈ pre, Insensitive fn)
    {op op1 : DataOperation} {ctx : RequestContext} {cs : List ServiceConfig}
    {c : ServiceConfig} {w : Option String}
    (h : filterServiceConfigs op ctx cs (pre ++ [filterOutputFormatMatches])
      = (ChooseResult.svc c, op1, w)) :
    filterServiceConfigs op1 ctx cs (pre ++ [filterOutputFormatMatches])
      = (ChooseResult.svc c, op1, none) := by
  obtain ⟨hw, m, r2, hrf, hcase⟩ := fsc_svc_inv h
  rcases hcase with ⟨hsel, hop, t, hm⟩ | ⟨f, t, hsel, hop, hnar⟩
  · subst hop
    rw [hw] at h
    exact h
  · obtain ⟨cs1, r1, hpre, hfmt⟩ := runFilters_last_ok hrf
    subst hop
    rw [fsc_setFmt_of_pre_ok hIns hpre]
    have hfin : selectServicesForFormat f cs1 = c :: t := by
      by_cases hreq : requiresReformatting op ctx
      · obtain ⟨g, hselc, hmg⟩ := fmt_ok_true_inv hreq hfmt
        have hgf : g = f := by
          cases hof : op.outputFormat with
          | some f0 =>
            have hf : f0 = f := by
              unfold selectFormat at hsel
              rw [hof] at hsel
              simpa using hsel
            have hg : f0 = g := by
              unfold selectFormat at hselc
              rw [hof] at hselc
              simpa using hselc
            rw [← hg, hf]
          | none =>
            have hloopc : selectFormatLoop ctx.requestedMimeTypes cs1 = some g := by
              unfold selectFormat at hselc
              rw [hof] at hselc
              simpa using hselc
            have hstable := selectFormatLoop_narrow_stable hloopc
            have hloopm : selectFormatLoop ctx.requestedMimeTypes m = some f := by
              unfold selectFormat at hsel
              rw [hof] at hsel
              simpa using hsel
            rw [hmg] at hloopm
            exact option_some_det hstable hloopm
        have hmeq : m = selectServicesForFormat f cs1 := by rw [hmg, hgf]
        rw [hmeq, selectServicesForFormat_idem] at hnar
        exact hnar
      · obtain ⟨hmcs, -⟩ := fmt_ok_false_inv (by simpa using hreq) hfmt
        rw [hmcs] at hnar
        exact hnar
    rw [hfin]

/-! ### Lemmas about chooseServiceConfig -/

/-- Strict matching is off exactly for mixed requests: at least one soft
axis together with at least one hard axis. -/
theorem strict_false_iff_mixed (op : DataOperation) (ctx : RequestContext) :
    requiresStrictCapabilitiesMatching op ctx = false ↔
      ((requiresSpatialSubsetting op || requiresShapefileSubsetting op)
        && (requiresVariableSubsetting op || requiresReprojection op
            || requiresReformatting op ctx)) = true := by
  unfold requiresStrictCapabilitiesMatching
  generalize requiresSpatialSubsetting op = a
  generalize requiresShapefileSubsetting op = b
  generalize requiresVariableSubsetting op = c
  generalize requiresReprojection op = d
  generalize requiresReformatting op ctx = e
  revert a b c d e
  decide

/-- Evaluation of `chooseServiceConfig` given the strict-run result. -/
theorem choose_eval {op : DataOperation} {ctx : RequestContext} {st : ServiceState}
    {r1 : ChooseResult} {o1 : DataOperation} {w1 : Option String}
    (hfsc : filterServiceConfigs op ctx st.configs allFilterFns = (r1, o1, w1)) :
    chooseServiceConfig op ctx st =
      (if resultName r1 = some noOpService.name
          ∧ requiresStrictCapabilitiesMatching o1 ctx = false
       then
        (let r2 := filterServiceConfigs o1 ctx st.configs requiredFilterFns
         let st2 := applyWrite (applyWrite st w1) r2.2.2
         if resultName r2.1 = some noOpService.name then (r2.1, r2.2.1, st2)
         else
           match r2.1 with
           | ChooseResult.svc c =>
             (ChooseResult.svc { c with message := some bestEffortMessage }, r2.2.1, st2)
           | r => (r, r2.2.1, st2))
       else (r1, o1, applyWrite st w1)) := by
  unfold chooseServiceConfig
  rw [hfsc]

/-- Evaluation of `chooseServiceConfig` when no degraded retry happens. -/
theorem choose_eval_noretry {op : DataOperation} {ctx : RequestContext}
    {st : ServiceState} {r1 : ChooseResult} {o1 : DataOperation} {w1 : Option String}
    (hfsc : filterServiceConfigs op ctx st.configs allFilterFns = (r1, o1, w1))
    (hcond : ¬(resultName r1 = some noOpService.name
      ∧ requiresStrictCapabilitiesMatching o1 ctx = false)) :
    chooseServiceConfig op ctx st = (r1, o1, applyWrite st w1) := by
  rw [choose_eval hfsc, if_neg hcond]

/-- Evaluation of `chooseServiceConfig` when the degraded retry happens,
given the reduced-run result. -/
theorem choose_eval_retry {op : DataOperation} {ctx : RequestContext}
    {st : ServiceState} {r1 r2 : ChooseResult} {o1 o2 : DataOperation}
    {w1 w2 : Option String}
    (hfsc : filterServiceConfigs op ctx st.configs allFilterFns = (r1, o1, w1))
    (hcond : resultName r1 = some noOpService.name
      ∧ requiresStrictCapabilitiesMatching o1 ctx = false)
    (hfsc2 : filterServiceConfigs o1 ctx st.configs requiredFilterFns = (r2, o2, w2)) :
    chooseServiceConfig op ctx st =
      (if resultName r2 = some noOpService.name
       then (r2, o2, applyWrite (applyWrite st w1) w2)
       else
         match r2 with
         | ChooseResult.svc c =>
           (ChooseResult.svc { c with message := some bestEffortMessage }, o2,
             applyWrite (applyWrite st w1) w2)
         | r => (r, o2, applyWrite (applyWrite st w1) w2)) := by
  rw [choose_eval hfsc, if_pos hcond]
  simp only [hfsc2]
  by_cases hname : resultName r2 = some noOpService.name
  · simp [hname]
  · simp only [if_neg hname]
    cases r2 <;> rfl

/-- Writes do not touch the shared catalog. -/
theorem applyWrite_configs (st : ServiceState) (w : Option String) :
    (applyWrite st w).configs = st.configs := by
  cases w <;> rfl

/-! ### Shared example fixtures, drawn from the specification's scenarios -/

/-- Example media type image/tiff. -/
def exTiff : MimeType := ⟨"image", "tiff"⟩

/-- Example media type image/png. -/
def exPng : MimeType := ⟨"image", "png"⟩

/-- Example media type application/x-netcdf4. -/
def exNc4 : MimeType := ⟨"application", "x-netcdf4"⟩

/-- Example media type image/gif. -/
def exGif : MimeType := ⟨"image", "gif"⟩

/-- Builds an example service over collection C1. -/
def exSvc (n : String) (fmts : List MimeType) (v bb sh rp : Bool) : ServiceConfig :=
  ⟨n, ["C1"], ⟨fmts, ⟨v, bb, sh⟩, rp⟩, none⟩

/-- Example service A: tiff and netcdf4, shapefile subsetting only. -/
def exSvcA : ServiceConfig := exSvc "svc-a" [exTiff, exNc4] false false true false

/-- Example service B: tiff and png, spatial subsetting only. -/
def exSvcB : ServiceConfig := exSvc "svc-b" [exTiff, exPng] false true false false

/-- Example service C: tiff and png, reprojection only. -/
def exSvcC : ServiceConfig := exSvc "svc-c" [exTiff, exPng] false false false true

/-- Example catalog of the specification's scenarios. -/
def exCat : List ServiceConfig := [exSvcA, exSvcB, exSvcC]

/-- Example module state over the example catalog with a pristine sentinel. -/
def exSt : ServiceState := ⟨exCat, none⟩

/-- Example base request on collection C1 requiring nothing. -/
def exOp : DataOperation := ⟨[⟨"C1", []⟩], none, none, none, none⟩

/-- Example context with no accepted media types. -/
def exCtx : RequestContext := ⟨[]⟩

/-- Example request with reprojection and netcdf4 output (no soft axis). -/
def exOpW1 : DataOperation :=
  { exOp with crs := some "EPSG:4326", outputFormat := some exNc4 }

/-- Example request with a bounding rectangle and gif output. -/
def cexOp : DataOperation :=
  { exOp with boundingRectangle := some [0, 0, 10, 10], outputFormat := some exGif }

/-- Example service D: tiff only, spatial subsetting only. -/
def cexSvcD : ServiceConfig := exSvc "svc-d" [exTiff] false true false false

/-- Example one-service state for the mixed-failure scenario. -/
def cexSt : ServiceState := ⟨[cexSvcD], none⟩

/-- Example request with gif output and no other axis. -/
def exOpGif : DataOperation := { exOp with outputFormat := some exGif }

/-- Example request with a bounding rectangle and netcdf4 output. -/
def cexOpBN : DataOperation :=
  { exOp with boundingRectangle := some [0, 0, 10, 10], outputFormat := some exNc4 }

/-- Example request with png output and no other axis. -/
def exOpPng : DataOperation := { exOp with outputFormat := some exPng }

/-! ### Claim theorems -/

/-- C5: the strict chain applies its filters in exactly the order
collection (always applied, never logged, eliminating services whose
collection list does not include every collection referenced by the
request's sources), then variable subsetting, spatial subsetting, shapefile
subsetting, reprojection, and the output-format filter strictly last. -/
theorem C5_strict_chain_order :
    allFilterFns = [filterCollectionMatches, filterVariableSubsettingMatches,
        filterSpatialSubsettingMatches, filterShapefileSubsettingMatches,
        filterReprojectionMatches, filterOutputFormatMatches]
      ∧ (∀ (op : DataOperation) (cfg : ServiceConfig),
          isCollectionMatch op cfg = true ↔
            ∀ s ∈ op.sources, s.collection ∈ cfg.collections)
      ∧ (∀ (op : DataOperation) (ctx : RequestContext) (cs : List ServiceConfig)
          (r : List String) (m : List ServiceConfig) (r2 : List String),
          filterCollectionMatches op ctx cs r = Except.ok (m, r2) →
            r2 = r ∧ m = cs.filter (fun cfg => isCollectionMatch op cfg)) := by
  refine ⟨rfl, ?_, ?_⟩
  · intro op cfg
    simp [isCollectionMatch, List.all_eq_true]
  · intro op ctx cs r m r2 h
    simp only [filterCollectionMatches] at h
    split at h
    · cases h
    · injection h with h3
      injection h3 with hm hr
      exact ⟨hr.symm, hm.symm⟩

/-- C5 witness: the collection filter, on the example catalog with a request
on C1, keeps all services and leaves the log empty. -/
theorem C5_strict_chain_order_witness :
    filterCollectionMatches exOp exCtx exCat [] = Except.ok (exCat, [])
      ∧ (([] : List String) = []
        ∧ exCat = exCat.filter (fun cfg => isCollectionMatch exOp cfg)) := by
  have heq : filterCollectionMatches exOp exCtx exCat [] = Except.ok (exCat, []) := by
    rfl
  exact ⟨heq, C5_strict_chain_order.2.2 exOp exCtx exCat [] exCat [] heq⟩

/-- C4: every filter step of the chain either returns a non-empty sublist
together with the requirement log extended by exactly its own description,
or raises the signal carrying that same extended log (the collection step
never extends the log). -/
theorem C4_steps_nonempty_or_signal :
    (∀ (op : DataOperation) (ctx : RequestContext) (cs : List ServiceConfig)
      (r : List String),
      (∀ m r2, filterCollectionMatches op ctx cs r = Except.ok (m, r2) →
        m ≠ [] ∧ r2 = r)
      ∧ (∀ e, filterCollectionMatches op ctx cs r = Except.error e →
        e.requestedOperations = r))
    ∧ (∀ (op : DataOperation) (ctx : RequestContext) (cs : List ServiceConfig)
      (r : List String),
      (∀ m r2, filterVariableSubsettingMatches op ctx cs r = Except.ok (m, r2) →
        m ≠ [] ∧ r2 = (if requiresVariableSubsetting op
          then r ++ ["variable subsetting"] else r))
      ∧ (∀ e, filterVariableSubsettingMatches op ctx cs r = Except.error e →
        e.requestedOperations = (if requiresVariableSubsetting op
          then r ++ ["variable subsetting"] else r)))
    ∧ (∀ (op : DataOperation) (ctx : RequestContext) (cs : List ServiceConfig)
      (r : List String),
      (∀ m r2, filterSpatialSubsettingMatches op ctx cs r = Except.ok (m, r2) →
        m ≠ [] ∧ r2 = (if requiresSpatialSubsetting op
          then r ++ ["spatial subsetting"] else r))
      ∧ (∀ e, filterSpatialSubsettingMatches op ctx cs r = Except.error e →
        e.requestedOperations = (if requiresSpatialSubsetting op
          then r ++ ["spatial subsetting"] else r)))
    ∧ (∀ (op : DataOperation) (ctx : RequestContext) (cs : List ServiceConfig)
      (r : List String),
      (∀ m r2, filterShapefileSubsettingMatches op ctx cs r = Except.ok (m, r2) →
        m ≠ [] ∧ r2 = (if requiresShapefileSubsetting op
          then r ++ ["shapefile subsetting"] else r))
      ∧ (∀ e, filterShapefileSubsettingMatches op ctx cs r = Except.error e →
        e.requestedOperations = (if requiresShapefileSubsetting op
          then r ++ ["shapefile subsetting"] else r)))
    ∧ (∀ (op : DataOperation) (ctx : RequestContext) (cs : List ServiceConfig)
      (r : List String),
      (∀ m r2, filterReprojectionMatches op ctx cs r = Except.ok (m, r2) →
        m ≠ [] ∧ r2 = (if requiresReprojection op then r ++ ["reprojection"] else r))
      ∧ (∀ e, filterReprojectionMatches op ctx cs r = Except.error e →
        e.requestedOperations = (if requiresReprojection op
          then r ++ ["reprojection"] else r)))
    ∧ (∀ (op : DataOperation) (ctx : RequestContext) (cs : List ServiceConfig)
      (r : List String),
      (∀ m r2, filterOutputFormatMatches op ctx cs r = Except.ok (m, r2) →
        m ≠ [] ∧ r2 = (if requiresReformatting op ctx
          then r ++ ["reformatting to " ++ listToText
            ((match op.outputFormat with
              | some f => [f]
              | none => ctx.requestedMimeTypes).map mtText) Conjuction.OR]
          else r))
      ∧ (∀ e, filterOutputFormatMatches op ctx cs r = Except.error e →
        e.requestedOperations = (if requiresReformatting op ctx
          then r ++ ["reformatting to " ++ listToText
            ((match op.outputFormat with
              | some f => [f]
              | none => ctx.requestedMimeTypes).map mtText) Conjuction.OR]
          else r))) := by
  refine ⟨?_, ?_, ?_, ?_, ?_, ?_⟩
  · intro op ctx cs r
    constructor
    · intro m r2 h
      refine ⟨stepNE_filterCollectionMatches op ctx cs r m r2 h, ?_⟩
      simp only [filterCollectionMatches] at h
      split at h
      · cases h
      · injection h with h3
        injection h3 with hm hr
        exact hr.symm
    · intro e h
      simp only [filterCollectionMatches] at h
      split at h
      · injection h with h3
        rw [← h3]
      · cases h
  · intro op ctx cs r
    constructor
    · intro m r2 h
      refine ⟨stepNE_filterVariableSubsettingMatches op ctx cs r m r2 h, ?_⟩
      simp only [filterVariableSubsettingMatches] at h
      by_cases hreq : requiresVariableSubsetting op
      · rw [if_pos hreq] at h
        rw [if_pos hreq]
        split at h
        · cases h
        · injection h with h3
          injection h3 with hm hr
          exact hr.symm
      · rw [if_neg hreq] at h
        rw [if_neg hreq]
        split at h
        · cases h
        · injection h with h3
          injection h3 with hm hr
          exact hr.symm
    · intro e h
      simp only [filterVariableSubsettingMatches] at h
      by_cases hreq : requiresVariableSubsetting op
      · rw [if_pos hreq] at h
        rw [if_pos hreq]
        split at h
        · injection h with h3
          rw [← h3]
        · cases h
      · rw [if_neg hreq] at h
        rw [if_neg hreq]
        split at h
        · injection h with h3
          rw [← h3]
        · cases h
  · intro op ctx cs r
    constructor
    · intro m r2 h
      refine ⟨stepNE_filterSpatialSubsettingMatches op ctx cs r m r2 h, ?_⟩
      simp only [filterSpatialSubsettingMatches] at h
      by_cases hreq : requiresSpatialSubsetting op
      · rw [if_pos hreq] at h
        rw [if_pos hreq]
        split at h
        · cases h
        · injection h with h3
          injection h3 with hm hr
          exact hr.symm
      · rw [if_neg hreq] at h
        rw [if_neg hreq]
        split at h
        · cases h
        · injection h with h3
          injection h3 with hm hr
          exact hr.symm
    · intro e h
      simp only [filterSpatialSubsettingMatches] at h
      by_cases hreq : requiresSpatialSubsetting op
      · rw [if_pos hreq] at h
        rw [if_pos hreq]
        split at h
        · injection h with h3
          rw [← h3]
        · cases h
      · rw [if_neg hreq] at h
        rw [if_neg hreq]
        split at h
        · injection h with h3
          rw [← h3]
        · cases h
  · intro op ctx cs r
    constructor
    · intro m r2 h
      refine ⟨stepNE_filterShapefileSubsettingMatches op ctx cs r m r2 h, ?_⟩
      simp only [filterShapefileSubsettingMatches] at h
      by_cases hreq : requiresShapefileSubsetting op
      · rw [if_pos hreq] at h
        rw [if_pos hreq]
        split at h
        · cases h
        · injection h with h3
          injection h3 with hm hr
          exact hr.symm
      · rw [if_neg hreq] at h
        rw [if_neg hreq]
        split at h
        · cases h
        · injection h with h3
          injection h3 with hm hr
          exact hr.symm
    · intro e h
      simp only [filterShapefileSubsettingMatches] at h
      by_cases hreq : requiresShapefileSubsetting op
      · rw [if_pos hreq] at h
        rw [if_pos hreq]
        split at h
        · injection h with h3
          rw [← h3]
        · cases h
      · rw [if_neg hreq] at h
        rw [if_neg hreq]
        split at h
        · injection h with h3
          rw [← h3]
        · cases h
  · intro op ctx cs r
    constructor
    · intro m r2 h
      refine ⟨stepNE_filterReprojectionMatches op ctx cs r m r2 h, ?_⟩
      simp only [filterReprojectionMatches] at h
      by_cases hreq : requiresReprojection op
      · rw [if_pos hreq] at h
        rw [if_pos hreq]
        split at h
        · cases h
        · injection h with h3
          injection h3 with hm hr
          exact hr.symm
      · rw [if_neg hreq] at h
        rw [if_neg hreq]
        split at h
        · cases h
        · injection h with h3
          injection h3 with hm hr
          exact hr.symm
    · intro e h
      simp only [filterReprojectionMatches] at h
      by_cases hreq : requiresReprojection op
      · rw [if_pos hreq] at h
        rw [if_pos hreq]
        split at h
        · injection h with h3
          rw [← h3]
        · cases h
      · rw [if_neg hreq] at h
        rw [if_neg hreq]
        split at h
        · injection h with h3
          rw [← h3]
        · cases h
  · intro op ctx cs r
    constructor
    · intro m r2 h
      refine ⟨stepNE_filterOutputFormatMatches op ctx cs r m r2 h, ?_⟩
      simp only [filterOutputFormatMatches] at h
      by_cases hreq : requiresReformatting op ctx
      · rw [if_pos hreq] at h
        rw [if_pos hreq]
        split at h
        · cases h
        · injection h with h3
          injection h3 with hm hr
          exact hr.symm
      · rw [if_neg hreq] at h
        rw [if_neg hreq]
        split at h
        · cases h
        · injection h with h3
          injection h3 with hm hr
          exact hr.symm
    · intro e h
      simp only [filterOutputFormatMatches] at h
      by_cases hreq : requiresReformatting op ctx
      · rw [if_pos hreq] at h
        rw [if_pos hreq]
        split at h
        · injection h with h3
          rw [← h3]
        · cases h
      · rw [if_neg hreq] at h
        rw [if_neg hreq]
        split at h
        · injection h with h3
          rw [← h3]
        · cases h

/-- C4 witness: on the example catalog the collection step succeeds with a
non-empty list and an unchanged log. -/
theorem C4_steps_nonempty_or_signal_witness :
    filterCollectionMatches exOp exCtx exCat [] = Except.ok (exCat, [])
      ∧ (exCat ≠ [] ∧ ([] : List String) = []) := by
  have heq : filterCollectionMatches exOp exCtx exCat [] = Except.ok (exCat, []) := by
    rfl
  exact ⟨heq, (C4_steps_nonempty_or_signal.1 exOp exCtx exCat []).1 exCat [] heq⟩

/-- C6: format resolution iterates the accepted patterns in the
caller-supplied priority order; the first pattern with a non-empty filtered
set resolves to the first accepted entry of the output-format list of the
first such service in original candidate order, otherwise it advances to
the next pattern; no pattern matching yields no format. Preference order
dominates and within one preference level catalog order wins, as the
refinement to the spec-side resolver shows. -/
theorem C6_format_resolution :
    (∀ (op : DataOperation) (ctx : RequestContext) (cs : List ServiceConfig),
      op.outputFormat = none →
        selectFormat op ctx cs = resolveFormatSpec ctx.requestedMimeTypes cs)
    ∧ (∀ cs, resolveFormatSpec [] cs = none)
    ∧ (∀ (p : MimeType) (rest : List MimeType) (cs : List ServiceConfig)
        (s : ServiceConfig) (t : List ServiceConfig),
        selectServicesForFormat p cs = s :: t →
          resolveFormatSpec (p :: rest) cs =
            s.capabilities.output_formats.find? (fun f => isMimeTypeAccepted f p))
    ∧ (∀ (p : MimeType) (rest : List MimeType) (cs : List ServiceConfig),
        selectServicesForFormat p cs = [] →
          resolveFormatSpec (p :: rest) cs = resolveFormatSpec rest cs) := by
  refine ⟨?_, fun cs => rfl, ?_, ?_⟩
  · intro op ctx cs hof
    unfold selectFormat
    rw [hof]
    exact selectFormatLoop_eq_spec ctx.requestedMimeTypes cs
  · intro p rest cs s t h
    simp only [resolveFormatSpec]
    rw [h]
  · intro p rest cs h
    simp only [resolveFormatSpec]
    rw [h]

/-- C6 witness: on the example catalog with one accepted pattern the code's
resolution agrees with the spec-side resolver. -/
theorem C6_format_resolution_witness :
    exOp.outputFormat = none
      ∧ selectFormat exOp ⟨[exTiff]⟩ exCat = resolveFormatSpec [exTiff] exCat
      ∧ selectFormat exOp ⟨[exTiff]⟩ exCat = some exTiff := by
  exact ⟨rfl, C6_format_resolution.1 exOp ⟨[exTiff]⟩ exCat rfl, rfl⟩

/-- C1: for every request and context, after a strict no-match a degraded
retry is attempted if and only if the request requires at least one soft
axis (spatial or shapefile subsetting) and at least one hard axis (variable
subsetting, reprojection or reformatting); when it is not attempted, the
strict no-match result stands. -/
theorem C1_degraded_retry_iff_mixed (op : DataOperation) (ctx : RequestContext)
    (st : ServiceState) :
    (filterServiceConfigs op ctx st.configs allFilterFns).1 = ChooseResult.noOp →
    (degradedRetryAttempted op ctx st = true ↔
      ((requiresSpatialSubsetting op || requiresShapefileSubsetting op)
        && (requiresVariableSubsetting op || requiresReprojection op
            || requiresReformatting op ctx)) = true)
    ∧ (degradedRetryAttempted op ctx st = false →
        chooseServiceConfig op ctx st =
          ((filterServiceConfigs op ctx st.configs allFilterFns).1, op,
            applyWrite st (filterServiceConfigs op ctx st.configs allFilterFns).2.2)) := by
  intro h
  rcases hfsc : filterServiceConfigs op ctx st.configs allFilterFns with ⟨r1, o1, w1⟩
  rw [hfsc] at h
  simp only at h
  subst h
  obtain ⟨hop, e, hrun, hw⟩ := fsc_noOp_inv hfsc
  subst hop
  constructor
  · unfold degradedRetryAttempted
    rw [hfsc]
    simp only [resultName, decide_eq_true_eq, true_and]
    exact strict_false_iff_mixed _ ctx
  · intro hfalse
    unfold degradedRetryAttempted at hfalse
    rw [hfsc] at hfalse
    simp only [resultName, decide_eq_false_iff_not, true_and] at hfalse
    exact choose_eval_noretry hfsc (fun hcontra => hfalse hcontra.2)

/-- C1 witness: reprojection plus reformatting with no soft axis on the
example catalog yields a strict no-match, the retry is not attempted and
the strict result stands. -/
theorem C1_degraded_retry_iff_mixed_witness :
    (filterServiceConfigs exOpW1 exCtx exSt.configs allFilterFns).1 = ChooseResult.noOp
      ∧ degradedRetryAttempted exOpW1 exCtx exSt = false
      ∧ chooseServiceConfig exOpW1 exCtx exSt =
          ((filterServiceConfigs exOpW1 exCtx exSt.configs allFilterFns).1, exOpW1,
            applyWrite exSt (filterServiceConfigs exOpW1 exCtx exSt.configs allFilterFns).2.2) := by
  have hno : (filterServiceConfigs exOpW1 exCtx exSt.configs allFilterFns).1 =
      ChooseResult.noOp := by rfl
  have hatt : degradedRetryAttempted exOpW1 exCtx exSt = false := by rfl
  exact ⟨hno, hatt, (C1_degraded_retry_iff_mixed exOpW1 exCtx exSt hno).2 hatt⟩

/-- C2 (amended): when the degraded retry is permitted and both the strict
and the reduced chain throw, the sentinel is returned carrying the
diagnostic of the reduced run — the strict diagnostic is overwritten. -/
theorem C2_reduced_diagnostic_returned (op : DataOperation) (ctx : RequestContext)
    (st : ServiceState) (d1 d2 : String) :
    filterServiceConfigs op ctx st.configs allFilterFns =
        (ChooseResult.noOp, op, some d1) →
    requiresStrictCapabilitiesMatching op ctx = false →
    filterServiceConfigs op ctx st.configs requiredFilterFns =
        (ChooseResult.noOp, op, some d2) →
    chooseServiceConfig op ctx st =
      (ChooseResult.noOp, op, { st with noOpMessage := some d2 }) := by
  intro h1 hstrict h2
  rw [choose_eval_retry h1 ⟨rfl, hstrict⟩ h2]
  rfl

/-- C2 counterexample: request with bounding rectangle and output format
image/gif against a catalog with one bbox-capable tiff service. The strict
diagnostic mentions spatial subsetting; the message carried by the returned
sentinel is the reduced diagnostic, which does not — the claim that the
strict diagnostic is returned unchanged is false. -/
theorem C2_strict_diagnostic_not_preserved :
    (filterServiceConfigs cexOp exCtx cexSt.configs allFilterFns).2.2 =
        some "the requested combination of operations: spatial subsetting and reformatting to image/gif on C1 is unsupported"
      ∧ ((chooseServiceConfig cexOp exCtx cexSt).2.2).noOpMessage =
        some "the requested combination of operations: reformatting to image/gif on C1 is unsupported"
      ∧ ("the requested combination of operations: spatial subsetting and reformatting to image/gif on C1 is unsupported" : String)
          ≠ "the requested combination of operations: reformatting to image/gif on C1 is unsupported" := by
  exact ⟨rfl, rfl, by decide⟩

/-- C2 witness: the amended claim holds at the counterexample input. -/
theorem C2_reduced_diagnostic_returned_witness :
    filterServiceConfigs cexOp exCtx cexSt.configs allFilterFns =
        (ChooseResult.noOp, cexOp,
          some "the requested combination of operations: spatial subsetting and reformatting to image/gif on C1 is unsupported")
      ∧ requiresStrictCapabilitiesMatching cexOp exCtx = false
      ∧ filterServiceConfigs cexOp exCtx cexSt.configs requiredFilterFns =
        (ChooseResult.noOp, cexOp,
          some "the requested combination of operations: reformatting to image/gif on C1 is unsupported")
      ∧ chooseServiceConfig cexOp exCtx cexSt =
        (ChooseResult.noOp, cexOp,
          { cexSt with noOpMessage := some "the requested combination of operations: reformatting to image/gif on C1 is unsupported" }) := by
  have h1 : filterServiceConfigs cexOp exCtx cexSt.configs allFilterFns =
      (ChooseResult.noOp, cexOp,
        some "the requested combination of operations: spatial subsetting and reformatting to image/gif on C1 is unsupported") := by rfl
  have hs : requiresStrictCapabilitiesMatching cexOp exCtx = false := by rfl
  have h2 : filterServiceConfigs cexOp exCtx cexSt.configs requiredFilterFns =
      (ChooseResult.noOp, cexOp,
        some "the requested combination of operations: reformatting to image/gif on C1 is unsupported") := by rfl
  exact ⟨h1, hs, h2, C2_reduced_diagnostic_returned cexOp exCtx cexSt _ _ h1 hs h2⟩

/-- A sentinel first component determines the whole strict-run triple. -/
theorem fsc_fst_noOp_full {op : DataOperation} {ctx : RequestContext}
    {cs : List ServiceConfig} {fns : List FilterFn}
    (h : (filterServiceConfigs op ctx cs fns).1 = ChooseResult.noOp) :
    ∃ d, filterServiceConfigs op ctx cs fns = (ChooseResult.noOp, op, some d) := by
  rcases hfsc : filterServiceConfigs op ctx cs fns with ⟨r1, o1, w1⟩
  rw [hfsc] at h
  simp only at h
  subst h
  obtain ⟨hop, e, -, hw⟩ := fsc_noOp_inv hfsc
  exact ⟨unsupportedCombinationMessage e, by rw [hop, hw]⟩

/-- If reformatting is not required, no explicit output format is set. -/
theorem outputFormat_none_of_not_reformat {op : DataOperation} {ctx : RequestContext}
    (h : requiresReformatting op ctx = false) : op.outputFormat = none := by
  unfold requiresReformatting at h
  cases hof : op.outputFormat with
  | none => rfl
  | some f => rw [hof] at h; simp at h

/-- C9: every no-match result of `chooseServiceConfig` aliases the shared
module-level sentinel, whose message field is written in place: reading the
result's message reads the module state, and after two failing calls with
different requests, the result obtained from the first call carries the
second call's diagnostic message. -/
theorem C9_sentinel_shared_mutation :
    (∀ (op : DataOperation) (ctx : RequestContext) (st : ServiceState)
      (r : ChooseResult) (op2 : DataOperation) (st2 : ServiceState),
      chooseServiceConfig op ctx st = (r, op2, st2) → r = ChooseResult.noOp →
        readMessage r st2 = st2.noOpMessage ∧ resultName r = some noOpService.name)
    ∧ (chooseServiceConfig exOpGif exCtx exSt).1 = ChooseResult.noOp
    ∧ (chooseServiceConfig exOpW1 exCtx
        (chooseServiceConfig exOpGif exCtx exSt).2.2).1 = ChooseResult.noOp
    ∧ readMessage (chooseServiceConfig exOpGif exCtx exSt).1
        (chooseServiceConfig exOpGif exCtx exSt).2.2 =
      some "the requested combination of operations: reformatting to image/gif on C1 is unsupported"
    ∧ readMessage (chooseServiceConfig exOpGif exCtx exSt).1
        (chooseServiceConfig exOpW1 exCtx
          (chooseServiceConfig exOpGif exCtx exSt).2.2).2.2 =
      some "the requested combination of operations: reprojection and reformatting to application/x-netcdf4 on C1 is unsupported"
    ∧ ("the requested combination of operations: reformatting to image/gif on C1 is unsupported" : String)
        ≠ "the requested combination of operations: reprojection and reformatting to application/x-netcdf4 on C1 is unsupported" := by
  refine ⟨?_, rfl, rfl, rfl, rfl, by decide⟩
  intro op ctx st r op2 st2 h hr
  subst hr
  exact ⟨rfl, rfl⟩

/-- C9 witness: a concrete failing call returns the sentinel alias whose
message read is the state's sentinel message. -/
theorem C9_sentinel_shared_mutation_witness :
    chooseServiceConfig exOpGif exCtx exSt =
      (ChooseResult.noOp, exOpGif,
        (⟨exCat, some "the requested combination of operations: reformatting to image/gif on C1 is unsupported"⟩ : ServiceState))
    ∧ (readMessage ChooseResult.noOp
        (⟨exCat, some "the requested combination of operations: reformatting to image/gif on C1 is unsupported"⟩ : ServiceState) =
      (⟨exCat, some "the requested combination of operations: reformatting to image/gif on C1 is unsupported"⟩ : ServiceState).noOpMessage
      ∧ resultName ChooseResult.noOp = some noOpService.name) := by
  have heq : chooseServiceConfig exOpGif exCtx exSt =
      (ChooseResult.noOp, exOpGif,
        (⟨exCat, some "the requested combination of operations: reformatting to image/gif on C1 is unsupported"⟩ : ServiceState)) := by
    rfl
  exact ⟨heq, C9_sentinel_shared_mutation.1 exOpGif exCtx exSt _ _ _ heq rfl⟩

/-- C3: when the strict run fails, strict matching is not demanded and the
reduced run matches a service not named like the sentinel, the call returns
a clone of that descriptor with the fixed best-effort warning as message,
and the shared catalog in the module state is unchanged (in particular the
matched entry keeps its own message field). -/
theorem C3_degraded_clone_isolation (op : DataOperation) (ctx : RequestContext)
    (st : ServiceState) (c : ServiceConfig) (o2 : DataOperation) (w2 : Option String) :
    (filterServiceConfigs op ctx st.configs allFilterFns).1 = ChooseResult.noOp →
    requiresStrictCapabilitiesMatching op ctx = false →
    filterServiceConfigs op ctx st.configs requiredFilterFns =
      (ChooseResult.svc c, o2, w2) →
    c.name ≠ noOpService.name →
    (chooseServiceConfig op ctx st).1 =
        ChooseResult.svc { c with message := some bestEffortMessage }
      ∧ ((chooseServiceConfig op ctx st).2.2).configs = st.configs := by
  intro h1 hstrict h2 hname
  obtain ⟨d, hfull⟩ := fsc_fst_noOp_full h1
  rw [choose_eval_retry hfull ⟨rfl, hstrict⟩ h2]
  have hcond : ¬(resultName (ChooseResult.svc c) = some noOpService.name) := by
    simp [resultName, hname]
  rw [if_neg hcond]
  exact ⟨rfl, by rw [applyWrite_configs, applyWrite_configs]⟩

/-- C3 witness: bounding rectangle plus netcdf4 output on the example
catalog (scenario 4); the strict run fails, the reduced run matches service
A, and the clone gets the warning while the catalog stays unchanged. -/
theorem C3_degraded_clone_isolation_witness :
    (filterServiceConfigs cexOpBN exCtx exSt.configs allFilterFns).1 =
        ChooseResult.noOp
      ∧ requiresStrictCapabilitiesMatching cexOpBN exCtx = false
      ∧ filterServiceConfigs cexOpBN exCtx exSt.configs requiredFilterFns =
        (ChooseResult.svc exSvcA, setOutputFormat cexOpBN exNc4, none)
      ∧ exSvcA.name ≠ noOpService.name
      ∧ (chooseServiceConfig cexOpBN exCtx exSt).1 =
        ChooseResult.svc { exSvcA with message := some bestEffortMessage }
      ∧ ((chooseServiceConfig cexOpBN exCtx exSt).2.2).configs = exSt.configs := by
  have h1 : (filterServiceConfigs cexOpBN exCtx exSt.configs allFilterFns).1 =
      ChooseResult.noOp := by rfl
  have hstrict : requiresStrictCapabilitiesMatching cexOpBN exCtx = false := by rfl
  have h2 : filterServiceConfigs cexOpBN exCtx exSt.configs requiredFilterFns =
      (ChooseResult.svc exSvcA, setOutputFormat cexOpBN exNc4, none) := by rfl
  have hname : exSvcA.name ≠ noOpService.name := by decide
  have hmain := C3_degraded_clone_isolation cexOpBN exCtx exSt exSvcA
    (setOutputFormat cexOpBN exNc4) none h1 hstrict h2 hname
  exact ⟨h1, hstrict, h2, hname, hmain.1, hmain.2⟩

/-- C7: when the strict chain succeeds, `chooseServiceConfig` returns the
first remaining candidate in catalog order: the surviving candidates are an
in-order sublist of the catalog, any post-chain format narrowing is again an
in-order sublist of the survivors, and the head of the final remaining list
is returned (whenever its name differs from the sentinel's, the condition the
source's sentinel check turns on); in particular, for every request whose
collection set is satisfied by exactly one catalog entry and which requires
no other axis, that entry itself is returned, unchanged. -/
theorem C7_first_remaining_candidate :
    (∀ (op : DataOperation) (ctx : RequestContext) (st : ServiceState)
        (m : List ServiceConfig) (r2 : List String),
      runFilters allFilterFns op ctx st.configs [] = Except.ok (m, r2) →
        m.Sublist st.configs
        ∧ (∀ f : MimeType, (selectServicesForFormat f m).Sublist m)
        ∧ (∀ (c : ServiceConfig) (t : List ServiceConfig),
            selectFormat op ctx m = none → m = c :: t →
            c.name ≠ noOpService.name →
            (chooseServiceConfig op ctx st).1 = ChooseResult.svc c)
        ∧ (∀ (f : MimeType) (c : ServiceConfig) (t : List ServiceConfig),
            selectFormat op ctx m = some f →
            selectServicesForFormat f m = c :: t →
            c.name ≠ noOpService.name →
            (chooseServiceConfig op ctx st).1 = ChooseResult.svc c))
    ∧ (∀ (op : DataOperation) (ctx : RequestContext) (st : ServiceState)
        (c : ServiceConfig),
      st.configs.filter (fun cfg => isCollectionMatch op cfg) = [c] →
      requiresVariableSubsetting op = false →
      requiresSpatialSubsetting op = false →
      requiresShapefileSubsetting op = false →
      requiresReprojection op = false →
      requiresReformatting op ctx = false →
      (chooseServiceConfig op ctx st).1 = ChooseResult.svc c) := by
  constructor
  · intro op ctx st m r2 hrun
    refine ⟨runFilters_sublist allFilterFns_stepSub hrun,
      fun f => List.filter_sublist m, ?_, ?_⟩
    · intro c t hsel hm hname
      rw [hm] at hrun hsel
      have hfsc := fsc_of_ok_none hrun hsel
      have hcond : ¬(resultName (ChooseResult.svc c) = some noOpService.name
          ∧ requiresStrictCapabilitiesMatching op ctx = false) := by
        intro hcontra
        exact hname (Option.some.inj hcontra.1)
      rw [choose_eval_noretry hfsc hcond]
    · intro f c t hsel hnar hname
      have hfsc := fsc_of_ok_some hrun hsel hnar
      have hcond : ¬(resultName (ChooseResult.svc c) = some noOpService.name
          ∧ requiresStrictCapabilitiesMatching (setOutputFormat op f) ctx = false) := by
        intro hcontra
        exact hname (Option.some.inj hcontra.1)
      rw [choose_eval_noretry hfsc hcond]
  intro op ctx st c hcoll hvar hspat hshape hreproj hreq
  have hof : op.outputFormat = none := outputFormat_none_of_not_reformat hreq
  have h1 : filterCollectionMatches op ctx st.configs [] = Except.ok ([c], []) := by
    simp only [filterCollectionMatches, hcoll]
    rfl
  have h2 : filterVariableSubsettingMatches op ctx [c] [] = Except.ok ([c], []) := by
    simp [filterVariableSubsettingMatches, hvar]
  have h3 : filterSpatialSubsettingMatches op ctx [c] [] = Except.ok ([c], []) := by
    simp [filterSpatialSubsettingMatches, hspat]
  have h4 : filterShapefileSubsettingMatches op ctx [c] [] = Except.ok ([c], []) := by
    simp [filterShapefileSubsettingMatches, hshape]
  have h5 : filterReprojectionMatches op ctx [c] [] = Except.ok ([c], []) := by
    simp [filterReprojectionMatches, hreproj]
  have h6 : filterOutputFormatMatches op ctx [c] [] = Except.ok ([c], []) := by
    simp [filterOutputFormatMatches, hreq]
  have hrun : runFilters allFilterFns op ctx st.configs [] = Except.ok ([c], []) := by
    simp only [allFilterFns, runFilters, h1, h2, h3, h4, h5, h6]
  have hstrictT : requiresStrictCapabilitiesMatching op ctx = true := by
    unfold requiresStrictCapabilitiesMatching
    rw [hspat, hshape]
    rfl
  cases hsel : selectFormat op ctx [c] with
  | none =>
    have hfsc := fsc_of_ok_none hrun hsel
    rw [choose_eval_noretry hfsc (fun hcontra => by rw [hstrictT] at hcontra; cases hcontra.2)]
  | some f =>
    have hloop : selectFormatLoop ctx.requestedMimeTypes [c] = some f := by
      unfold selectFormat at hsel
      rw [hof] at hsel
      simpa using hsel
    obtain ⟨s, hs, hf, -⟩ := selectFormatLoop_some_char hloop
    have hsc : s = c := by simpa using hs
    subst hsc
    have hpred : (s.capabilities.output_formats.find?
        (fun g => isMimeTypeAccepted g f)).isSome = true := by
      rw [List.find?_isSome]
      exact ⟨f, hf, isMimeTypeAccepted_refl f⟩
    have hnar : selectServicesForFormat f [s] = [s] := by
      unfold selectServicesForFormat
      simp [hpred]
    have hfsc := fsc_of_ok_some hrun hsel hnar
    have hstrictT2 : requiresStrictCapabilitiesMatching (setOutputFormat op f) ctx
        = true := by
      unfold requiresStrictCapabilitiesMatching
      rw [requiresSpatialSubsetting_setFmt, requiresShapefileSubsetting_setFmt,
        hspat, hshape]
      rfl
    rw [choose_eval_noretry hfsc (fun hcontra => by rw [hstrictT2] at hcontra; cases hcontra.2)]

/-- C7 witness: the png request on the three-service catalog survives the
strict chain with the two png-capable services, an in-order sublist of the
catalog, and the first of them is returned; and the base request on the
one-service catalog returns that service unchanged. -/
theorem C7_first_remaining_candidate_witness :
    runFilters allFilterFns exOpPng exCtx exSt.configs []
        = Except.ok ([exSvcB, exSvcC], ["reformatting to image/png"])
      ∧ selectFormat exOpPng exCtx [exSvcB, exSvcC] = some exPng
      ∧ selectServicesForFormat exPng [exSvcB, exSvcC] = [exSvcB, exSvcC]
      ∧ exSvcB.name ≠ noOpService.name
      ∧ [exSvcB, exSvcC].Sublist exSt.configs
      ∧ (chooseServiceConfig exOpPng exCtx exSt).1 = ChooseResult.svc exSvcB
      ∧ cexSt.configs.filter (fun cfg => isCollectionMatch exOp cfg) = [cexSvcD]
      ∧ (chooseServiceConfig exOp exCtx cexSt).1 = ChooseResult.svc cexSvcD := by
  have hrun : runFilters allFilterFns exOpPng exCtx exSt.configs []
      = Except.ok ([exSvcB, exSvcC], ["reformatting to image/png"]) := by rfl
  have hsel : selectFormat exOpPng exCtx [exSvcB, exSvcC] = some exPng := by rfl
  have hnar : selectServicesForFormat exPng [exSvcB, exSvcC] = [exSvcB, exSvcC] := by rfl
  have hname : exSvcB.name ≠ noOpService.name := by decide
  have h := C7_first_remaining_candidate.1 exOpPng exCtx exSt [exSvcB, exSvcC]
    ["reformatting to image/png"] hrun
  refine ⟨hrun, hsel, hnar, hname, h.1,
    h.2.2.2 exPng exSvcB [exSvcC] hsel hnar hname, by rfl, ?_⟩
  exact C7_first_remaining_candidate.2 exOp exCtx cexSt cexSvcD (by rfl) rfl rfl rfl rfl rfl

/-- C10: on every input, `chooseServiceConfig` returns the sentinel or a
service descriptor — never the undefined value that an empty post-chain
narrowing would produce. -/
theorem C10_no_undefined_result (op : DataOperation) (ctx : RequestContext)
    (st : ServiceState) :
    (chooseServiceConfig op ctx st).1 = ChooseResult.noOp
      ∨ ∃ c, (chooseServiceConfig op ctx st).1 = ChooseResult.svc c := by
  rcases hfsc : filterServiceConfigs op ctx st.configs allFilterFns with ⟨r1, o1, w1⟩
  have hshape1 := fsc_shape preAllFns op ctx st.configs
  rw [← allFilterFns_decomp, hfsc] at hshape1
  simp only at hshape1
  rw [choose_eval hfsc]
  by_cases hcond : resultName r1 = some noOpService.name
      ∧ requiresStrictCapabilitiesMatching o1 ctx = false
  · rw [if_pos hcond]
    rcases hfsc2 : filterServiceConfigs o1 ctx st.configs requiredFilterFns
      with ⟨r2, o2, w2⟩
    have hshape2 := fsc_shape preReqFns o1 ctx st.configs
    rw [← requiredFilterFns_decomp, hfsc2] at hshape2
    simp only at hshape2
    simp only [hfsc2]
    by_cases hname : resultName r2 = some noOpService.name
    · rw [if_pos hname]
      rcases hshape2 with h | ⟨c, h⟩
      · subst h; left; rfl
      · subst h; right; exact ⟨c, rfl⟩
    · rw [if_neg hname]
      rcases hshape2 with h | ⟨c, h⟩
      · subst h; exact absurd rfl hname
      · subst h
        right
        exact ⟨{ c with message := some bestEffortMessage }, rfl⟩
  · rw [if_neg hcond]
    rcases hshape1 with h | ⟨c, h⟩
    · subst h; left; rfl
    · subst h; right; exact ⟨c, rfl⟩

/-! ### Support lemmas for the idempotence analysis -/

/-- A successful run of any non-empty chain of non-empty-preserving steps
returns a non-empty list. -/
theorem runFilters_ne_nil_ok_ne {fns : List FilterFn} (hne : fns ≠ [])
    (hall : ∀ g ∈ fns, StepNE g) {op : DataOperation} {ctx : RequestContext}
    {cs : List ServiceConfig} {r : List String} {m : List ServiceConfig}
    {r2 : List String} (h : runFilters fns op ctx cs r = Except.ok (m, r2)) :
    m ≠ [] := by
  cases fns with
  | nil => exact absurd rfl hne
  | cons fn rest => exact runFilters_cons_ok_ne hall h

/-- Strict-prefix steps preserve non-emptiness. -/
theorem preAllFns_stepNE : ∀ g ∈ preAllFns, StepNE g := by
  intro g hg
  refine allFilterFns_stepNE g ?_
  rw [allFilterFns_decomp]
  exact List.mem_append_left _ hg

/-- Reduced-prefix steps preserve non-emptiness. -/
theorem preReqFns_stepNE : ∀ g ∈ preReqFns, StepNE g := by
  intro g hg
  refine requiredFilterFns_stepNE g ?_
  rw [requiredFilterFns_decomp]
  exact List.mem_append_left _ hg

/-- Strict-chain success idempotence. -/
theorem fsc_success_idem_all {op op1 : DataOperation} {ctx : RequestContext}
    {cs : List ServiceConfig} {c : ServiceConfig} {w : Option String}
    (h : filterServiceConfigs op ctx cs allFilterFns = (ChooseResult.svc c, op1, w)) :
    filterServiceConfigs op1 ctx cs allFilterFns = (ChooseResult.svc c, op1, none) := by
  rw [allFilterFns_decomp] at h ⊢
  exact fsc_success_idem preAllFns_insensitive h

/-- Reduced-chain success idempotence. -/
theorem fsc_success_idem_req {op op1 : DataOperation} {ctx : RequestContext}
    {cs : List ServiceConfig} {c : ServiceConfig} {w : Option String}
    (h : filterServiceConfigs op ctx cs requiredFilterFns = (ChooseResult.svc c, op1, w)) :
    filterServiceConfigs op1 ctx cs requiredFilterFns = (ChooseResult.svc c, op1, none) := by
  rw [requiredFilterFns_decomp] at h ⊢
  exact fsc_success_idem preReqFns_insensitive h

/-- The operation returned by a successful run is the input operation, or
the input with a format accepted by some requested pattern written into a
previously empty format field. -/
theorem fsc_svc_op_cases {op : DataOperation} {ctx : RequestContext}
    {cs : List ServiceConfig} {fns : List FilterFn} {c : ServiceConfig}
    {op1 : DataOperation} {w : Option String}
    (h : filterServiceConfigs op ctx cs fns = (ChooseResult.svc c, op1, w)) :
    op1 = op ∨ (op.outputFormat = none ∧ ∃ f, op1 = setOutputFormat op f
      ∧ ∃ mt ∈ ctx.requestedMimeTypes, isMimeTypeAccepted f mt = true) := by
  obtain ⟨hw, m, r2, hrf, hcase⟩ := fsc_svc_inv h
  rcases hcase with ⟨hsel, hop, -⟩ | ⟨f, t, hsel, hop, hnar⟩
  · left; exact hop
  · cases hof : op.outputFormat with
    | some f0 =>
      left
      have hff : f = f0 := by
        unfold selectFormat at hsel
        rw [hof] at hsel
        simpa using hsel.symm
      rw [hop, hff]
      exact setOutputFormat_self hof
    | none =>
      right
      refine ⟨rfl, f, hop, ?_⟩
      have hloop : selectFormatLoop ctx.requestedMimeTypes m = some f := by
        unfold selectFormat at hsel
        rw [hof] at hsel
        simpa using hsel
      obtain ⟨-, -, -, mt, hmt, hacc⟩ := selectFormatLoop_some_char hloop
      exact ⟨mt, hmt, hacc⟩

/-- A strict run that throws still throws after a format accepted by some
requested pattern is written into a previously empty format field. -/
theorem strict_errors_after_setFmt {op : DataOperation} {ctx : RequestContext}
    {cs : List ServiceConfig} {f : MimeType}
    (hof : op.outputFormat = none)
    (herr : ∃ e, runFilters allFilterFns op ctx cs [] = Except.error e)
    (hpat : ∃ mt ∈ ctx.requestedMimeTypes, isMimeTypeAccepted f mt = true) :
    ∃ d, filterServiceConfigs (setOutputFormat op f) ctx cs allFilterFns =
      (ChooseResult.noOp, setOutputFormat op f, some d) := by
  obtain ⟨e, herr⟩ := herr
  rw [allFilterFns_decomp] at herr ⊢
  cases hpre : runFilters preAllFns op ctx cs [] with
  | error e0 =>
    exact ⟨_, fsc_setFmt_of_pre_error preAllFns_insensitive hpre⟩
  | ok x =>
    obtain ⟨cs1, r1⟩ := x
    have hfmt : ∃ e1, filterOutputFormatMatches op ctx cs1 r1 = Except.error e1 := by
      rw [runFilters_append, hpre] at herr
      simp only [runFilters] at herr
      cases hf : filterOutputFormatMatches op ctx cs1 r1 with
      | error e1 => exact ⟨e1, rfl⟩
      | ok y =>
        obtain ⟨m1, r3⟩ := y
        rw [hf] at herr
        cases herr
    obtain ⟨e1, hfmt⟩ := hfmt
    have hcs1 : cs1 ≠ [] :=
      runFilters_ne_nil_ok_ne (by simp [preAllFns]) preAllFns_stepNE hpre
    have hallempty := strict_error_all_empty hof hfmt hcs1
    have hempty : selectServicesForFormat f cs1 = [] :=
      selectServicesForFormat_empty_trans hallempty hpat
    have heval := fsc_setFmt_of_pre_ok (f := f) preAllFns_insensitive hpre
    rw [hempty] at heval
    exact ⟨_, heval⟩

/-- A strict run that succeeds without mutating the operation throws after a
format accepted by some requested pattern is written into the (necessarily
empty) format field: no strict candidate accepts any requested pattern. -/
theorem strict_success_unmutated_then_errors {op : DataOperation}
    {ctx : RequestContext} {cs : List ServiceConfig} {f : MimeType}
    {c : ServiceConfig}
    (hof : op.outputFormat = none)
    (hfsc : filterServiceConfigs op ctx cs allFilterFns = (ChooseResult.svc c, op, none))
    (hpat : ∃ mt ∈ ctx.requestedMimeTypes, isMimeTypeAccepted f mt = true) :
    ∃ d, filterServiceConfigs (setOutputFormat op f) ctx cs allFilterFns =
      (ChooseResult.noOp, setOutputFormat op f, some d) := by
  obtain ⟨-, m, r2, hrf, hcase⟩ := fsc_svc_inv hfsc
  rcases hcase with ⟨hsel, -, t, hm⟩ | ⟨f2, t, hsel2, hop2, -⟩
  · rw [allFilterFns_decomp] at hrf ⊢
    obtain ⟨cs1, r1, hpre, hfmt⟩ := runFilters_last_ok hrf
    obtain ⟨hreqF, hallempty⟩ := success_post_none_all_empty hof hfmt hsel
    have hempty : selectServicesForFormat f cs1 = [] :=
      selectServicesForFormat_empty_trans hallempty hpat
    have heval := fsc_setFmt_of_pre_ok (f := f) preAllFns_insensitive hpre
    rw [hempty] at heval
    exact ⟨_, heval⟩
  · exfalso
    have hcontra := congrArg DataOperation.outputFormat hop2
    rw [hof] at hcontra
    simp [setOutputFormat] at hcontra

/-- C8: calling `chooseServiceConfig` twice with the same request, context
and catalog — the first call being allowed to write the request's resolved
output format and the sentinel message — yields a result with the same
chosen service name and the same message both times. -/
theorem C8_choose_idempotent (op : DataOperation) (ctx : RequestContext)
    (st : ServiceState) :
    resultName (chooseServiceConfig (chooseServiceConfig op ctx st).2.1 ctx
        (chooseServiceConfig op ctx st).2.2).1 =
      resultName (chooseServiceConfig op ctx st).1
    ∧ readMessage (chooseServiceConfig (chooseServiceConfig op ctx st).2.1 ctx
          (chooseServiceConfig op ctx st).2.2).1
        (chooseServiceConfig (chooseServiceConfig op ctx st).2.1 ctx
          (chooseServiceConfig op ctx st).2.2).2.2 =
      readMessage (chooseServiceConfig op ctx st).1
        (chooseServiceConfig op ctx st).2.2 := by
  rcases hfsc : filterServiceConfigs op ctx st.configs allFilterFns with ⟨r1, o1, w1⟩
  cases r1 with
  | undef =>
    exfalso
    have hsh := fsc_shape preAllFns op ctx st.configs
    rw [← allFilterFns_decomp, hfsc] at hsh
    simp at hsh
  | svc c =>
    have hw1 : w1 = none := (fsc_svc_inv hfsc).1
    subst hw1
    have hfsc2s : filterServiceConfigs o1 ctx st.configs allFilterFns
        = (ChooseResult.svc c, o1, none) := fsc_success_idem_all hfsc
    by_cases hguard : resultName (ChooseResult.svc c) = some noOpService.name
        ∧ requiresStrictCapabilitiesMatching o1 ctx = false
    · rcases hfscR : filterServiceConfigs o1 ctx st.configs requiredFilterFns
        with ⟨r2, o2, w2⟩
      cases r2 with
      | undef =>
        exfalso
        have hsh := fsc_shape preReqFns o1 ctx st.configs
        rw [← requiredFilterFns_decomp, hfscR] at hsh
        simp at hsh
      | noOp =>
        obtain ⟨hop2, e2, -, hw2⟩ := fsc_noOp_inv hfscR
        rw [hop2, hw2] at hfscR
        have ht1 : chooseServiceConfig op ctx st = (ChooseResult.noOp, o1,
            applyWrite st (some (unsupportedCombinationMessage e2))) := by
          rw [choose_eval_retry hfsc hguard hfscR, if_pos (show resultName ChooseResult.noOp = some noOpService.name from rfl)]
          try rfl
        rw [ht1]
        have hfsc2b : filterServiceConfigs o1 ctx
            (applyWrite st (some (unsupportedCombinationMessage e2))).configs
            allFilterFns = (ChooseResult.svc c, o1, none) := by
          rw [applyWrite_configs]
          exact hfsc2s
        have hfscRb : filterServiceConfigs o1 ctx
            (applyWrite st (some (unsupportedCombinationMessage e2))).configs
            requiredFilterFns = (ChooseResult.noOp, o1,
              some (unsupportedCombinationMessage e2)) := by
          rw [applyWrite_configs]
          exact hfscR
        have ht2 : chooseServiceConfig o1 ctx
            (applyWrite st (some (unsupportedCombinationMessage e2))) =
            (ChooseResult.noOp, o1, applyWrite
              (applyWrite st (some (unsupportedCombinationMessage e2)))
              (some (unsupportedCombinationMessage e2))) := by
          rw [choose_eval_retry hfsc2b hguard hfscRb, if_pos (show resultName ChooseResult.noOp = some noOpService.name from rfl)]
          try rfl
        rw [ht2]
        exact ⟨rfl, rfl⟩
      | svc cR =>
        have hw2 : w2 = none := (fsc_svc_inv hfscR).1
        subst hw2
        rcases fsc_svc_op_cases hfscR with hop2 | ⟨hofo1, f, hop2, hpat⟩
        · rw [hop2] at hfscR
          by_cases hnameR : resultName (ChooseResult.svc cR) = some noOpService.name
          · have ht1 : chooseServiceConfig op ctx st = (ChooseResult.svc cR, o1, st) := by
              rw [choose_eval_retry hfsc hguard hfscR, if_pos hnameR]
              try rfl
            rw [ht1]
            have ht2 : chooseServiceConfig o1 ctx st = (ChooseResult.svc cR, o1, st) := by
              rw [choose_eval_retry hfsc2s hguard hfscR, if_pos hnameR]
              try rfl
            rw [ht2]
            exact ⟨rfl, rfl⟩
          · have ht1 : chooseServiceConfig op ctx st =
                (ChooseResult.svc { cR with message := some bestEffortMessage },
                  o1, st) := by
              rw [choose_eval_retry hfsc hguard hfscR, if_neg hnameR]
              try rfl
            rw [ht1]
            have ht2 : chooseServiceConfig o1 ctx st =
                (ChooseResult.svc { cR with message := some bestEffortMessage },
                  o1, st) := by
              rw [choose_eval_retry hfsc2s hguard hfscR, if_neg hnameR]
              try rfl
            rw [ht2]
            exact ⟨rfl, rfl⟩
        · rw [hop2] at hfscR
          obtain ⟨d, herr2⟩ := strict_success_unmutated_then_errors hofo1 hfsc2s hpat
          have hstrict2 : requiresStrictCapabilitiesMatching
              (setOutputFormat o1 f) ctx = false :=
            requiresStrictCapabilitiesMatching_setFmt f hguard.2
          have hred2 : filterServiceConfigs (setOutputFormat o1 f) ctx st.configs
              requiredFilterFns =
              (ChooseResult.svc cR, setOutputFormat o1 f, none) :=
            fsc_success_idem_req hfscR
          by_cases hnameR : resultName (ChooseResult.svc cR) = some noOpService.name
          · have ht1 : chooseServiceConfig op ctx st =
                (ChooseResult.svc cR, setOutputFormat o1 f, st) := by
              rw [choose_eval_retry hfsc hguard hfscR, if_pos hnameR]
              try rfl
            rw [ht1]
            have ht2 : chooseServiceConfig (setOutputFormat o1 f) ctx st =
                (ChooseResult.svc cR, setOutputFormat o1 f, applyWrite st (some d)) := by
              rw [choose_eval_retry herr2 ⟨rfl, hstrict2⟩ hred2, if_pos hnameR]
              try rfl
            rw [ht2]
            exact ⟨rfl, rfl⟩
          · have ht1 : chooseServiceConfig op ctx st =
                (ChooseResult.svc { cR with message := some bestEffortMessage },
                  setOutputFormat o1 f, st) := by
              rw [choose_eval_retry hfsc hguard hfscR, if_neg hnameR]
              try rfl
            rw [ht1]
            have ht2 : chooseServiceConfig (setOutputFormat o1 f) ctx st =
                (ChooseResult.svc { cR with message := some bestEffortMessage },
                  setOutputFormat o1 f, applyWrite st (some d)) := by
              rw [choose_eval_retry herr2 ⟨rfl, hstrict2⟩ hred2, if_neg hnameR]
              try rfl
            rw [ht2]
            exact ⟨rfl, rfl⟩
    · have ht1 : chooseServiceConfig op ctx st = (ChooseResult.svc c, o1, st) := by
        rw [choose_eval_noretry hfsc hguard]
        try rfl
      rw [ht1]
      have ht2 : chooseServiceConfig o1 ctx st = (ChooseResult.svc c, o1, st) := by
        rw [choose_eval_noretry hfsc2s hguard]
        try rfl
      rw [ht2]
      exact ⟨rfl, rfl⟩
  | noOp =>
    obtain ⟨hop1, e1, hrune, hw1⟩ := fsc_noOp_inv hfsc
    rw [hop1, hw1] at hfsc
    by_cases hstrictM : requiresStrictCapabilitiesMatching op ctx = false
    · rcases hfscR : filterServiceConfigs op ctx st.configs requiredFilterFns
        with ⟨r2, o2, w2⟩
      cases r2 with
      | undef =>
        exfalso
        have hsh := fsc_shape preReqFns op ctx st.configs
        rw [← requiredFilterFns_decomp, hfscR] at hsh
        simp at hsh
      | noOp =>
        obtain ⟨hop2, e2, -, hw2⟩ := fsc_noOp_inv hfscR
        rw [hop2, hw2] at hfscR
        have ht1 : chooseServiceConfig op ctx st = (ChooseResult.noOp, op,
            applyWrite (applyWrite st (some (unsupportedCombinationMessage e1)))
              (some (unsupportedCombinationMessage e2))) := by
          rw [choose_eval_retry hfsc ⟨rfl, hstrictM⟩ hfscR, if_pos (show resultName ChooseResult.noOp = some noOpService.name from rfl)]
          try rfl
        rw [ht1]
        have hfsc1b : filterServiceConfigs op ctx
            (applyWrite (applyWrite st (some (unsupportedCombinationMessage e1)))
              (some (unsupportedCombinationMessage e2))).configs allFilterFns =
            (ChooseResult.noOp, op, some (unsupportedCombinationMessage e1)) := by
          rw [applyWrite_configs, applyWrite_configs]
          exact hfsc
        have hfscRb : filterServiceConfigs op ctx
            (applyWrite (applyWrite st (some (unsupportedCombinationMessage e1)))
              (some (unsupportedCombinationMessage e2))).configs requiredFilterFns =
            (ChooseResult.noOp, op, some (unsupportedCombinationMessage e2)) := by
          rw [applyWrite_configs, applyWrite_configs]
          exact hfscR
        have ht2 := choose_eval_retry hfsc1b ⟨rfl, hstrictM⟩ hfscRb
        rw [ht2, if_pos (show resultName ChooseResult.noOp = some noOpService.name from rfl)]
        exact ⟨rfl, rfl⟩
      | svc cR =>
        have hw2 : w2 = none := (fsc_svc_inv hfscR).1
        subst hw2
        rcases fsc_svc_op_cases hfscR with hop2 | ⟨hofop, f, hop2, hpat⟩
        · rw [hop2] at hfscR
          have hfsc1b : filterServiceConfigs op ctx
              (applyWrite (applyWrite st (some (unsupportedCombinationMessage e1)))
                none).configs allFilterFns =
              (ChooseResult.noOp, op, some (unsupportedCombinationMessage e1)) := by
            rw [applyWrite_configs, applyWrite_configs]
            exact hfsc
          have hfscRb : filterServiceConfigs op ctx
              (applyWrite (applyWrite st (some (unsupportedCombinationMessage e1)))
                none).configs requiredFilterFns =
              (ChooseResult.svc cR, op, none) := by
            rw [applyWrite_configs, applyWrite_configs]
            exact hfscR
          by_cases hnameR : resultName (ChooseResult.svc cR) = some noOpService.name
          · have ht1 : chooseServiceConfig op ctx st = (ChooseResult.svc cR, op,
                applyWrite (applyWrite st (some (unsupportedCombinationMessage e1)))
                  none) := by
              rw [choose_eval_retry hfsc ⟨rfl, hstrictM⟩ hfscR, if_pos hnameR]
              try rfl
            rw [ht1]
            have ht2 := choose_eval_retry hfsc1b ⟨rfl, hstrictM⟩ hfscRb
            rw [ht2, if_pos hnameR]
            exact ⟨rfl, rfl⟩
          · have ht1 : chooseServiceConfig op ctx st =
                (ChooseResult.svc { cR with message := some bestEffortMessage }, op,
                  applyWrite (applyWrite st (some (unsupportedCombinationMessage e1)))
                    none) := by
              rw [choose_eval_retry hfsc ⟨rfl, hstrictM⟩ hfscR, if_neg hnameR]
              try rfl
            rw [ht1]
            have ht2 := choose_eval_retry hfsc1b ⟨rfl, hstrictM⟩ hfscRb
            rw [ht2, if_neg hnameR]
            exact ⟨rfl, rfl⟩
        · subst hop2
          obtain ⟨d, herr2⟩ := strict_errors_after_setFmt hofop ⟨e1, hrune⟩ hpat
          have hstrict2 : requiresStrictCapabilitiesMatching
              (setOutputFormat op f) ctx = false :=
            requiresStrictCapabilitiesMatching_setFmt f hstrictM
          have hred2 : filterServiceConfigs (setOutputFormat op f) ctx st.configs
              requiredFilterFns =
              (ChooseResult.svc cR, setOutputFormat op f, none) :=
            fsc_success_idem_req hfscR
          have herr2b : filterServiceConfigs (setOutputFormat op f) ctx
              (applyWrite (applyWrite st (some (unsupportedCombinationMessage e1)))
                none).configs allFilterFns =
              (ChooseResult.noOp, setOutputFormat op f, some d) := by
            rw [applyWrite_configs, applyWrite_configs]
            exact herr2
          have hred2b : filterServiceConfigs (setOutputFormat op f) ctx
              (applyWrite (applyWrite st (some (unsupportedCombinationMessage e1)))
                none).configs requiredFilterFns =
              (ChooseResult.svc cR, setOutputFormat op f, none) := by
            rw [applyWrite_configs, applyWrite_configs]
            exact hred2
          by_cases hnameR : resultName (ChooseResult.svc cR) = some noOpService.name
          · have ht1 : chooseServiceConfig op ctx st = (ChooseResult.svc cR,
                setOutputFormat op f,
                applyWrite (applyWrite st (some (unsupportedCombinationMessage e1)))
                  none) := by
              rw [choose_eval_retry hfsc ⟨rfl, hstrictM⟩ hfscR, if_pos hnameR]
              try rfl
            rw [ht1]
            have ht2 := choose_eval_retry herr2b ⟨rfl, hstrict2⟩ hred2b
            rw [ht2, if_pos hnameR]
            exact ⟨rfl, rfl⟩
          · have ht1 : chooseServiceConfig op ctx st =
                (ChooseResult.svc { cR with message := some bestEffortMessage },
                  setOutputFormat op f,
                  applyWrite (applyWrite st (some (unsupportedCombinationMessage e1)))
                    none) := by
              rw [choose_eval_retry hfsc ⟨rfl, hstrictM⟩ hfscR, if_neg hnameR]
              try rfl
            rw [ht1]
            have ht2 := choose_eval_retry herr2b ⟨rfl, hstrict2⟩ hred2b
            rw [ht2, if_neg hnameR]
            exact ⟨rfl, rfl⟩
    · have hguard : ¬(resultName ChooseResult.noOp = some noOpService.name
          ∧ requiresStrictCapabilitiesMatching op ctx = false) :=
        fun hc => hstrictM hc.2
      have ht1 : chooseServiceConfig op ctx st = (ChooseResult.noOp, op,
          applyWrite st (some (unsupportedCombinationMessage e1))) := by
        rw [choose_eval_noretry hfsc hguard]
        try rfl
      rw [ht1]
      have hfsc1b : filterServiceConfigs op ctx
          (applyWrite st (some (unsupportedCombinationMessage e1))).configs
          allFilterFns =
          (ChooseResult.noOp, op, some (unsupportedCombinationMessage e1)) := by
        rw [applyWrite_configs]
        exact hfsc
      have ht2 := choose_eval_noretry hfsc1b hguard
      rw [ht2]
      exact ⟨rfl, rfl⟩

end HarmonySvc
